import Mathlib

/-!
Shallow embedding of the trading-bot repository: the backtesting engine of
`backtest_nas.py` and the live scale-in routine `check_and_execute_scaling`
of `trading_bot.py`, together with theorems settling the specification
claims about them.

Modelling conventions:
* Prices and monetary amounts are rationals (`ℚ`).  The Python source uses
  binary floating point, but the claims concern exact decimal quantities
  and structural properties of the state machine.
* Timestamps are minutes since an epoch (`Nat`).  The calendar date of a
  timestamp `t` is `t / 1440`, its time of day is `t % 1440`, and its
  weekday is `(t / 1440) % 7`, with Saturday = 5 and Sunday = 6 (mirroring
  the weekday skip in `Backtester.run`).
* `Trade.id` records the length of the engine's `all_trades` list at the
  moment the trade is opened; it models Python object identity of `Trade`
  objects (each `Trade` object is appended to `all_trades` exactly once,
  in `Backtester.open_trade`).
* The candle's open price is never read by the engine and is omitted from
  the `Candle` record.
-/

namespace TradingBot

/-- Trade direction, "BUY" / "SELL" in the source. -/
inductive Direction
  | BUY
  | SELL
deriving DecidableEq

/-- Trade type tag: "INITIAL", "SCALE", "REVERSAL" in the source. -/
inductive TradeType
  | INITIAL
  | SCALE
  | REVERSAL
deriving DecidableEq

/-- Session slot tag: "MORNING" / "AFTERNOON". -/
inductive SessionSlot
  | MORNING
  | AFTERNOON
deriving DecidableEq

/-- Exit reason: "TP", "REVERSAL", "TIME_EXIT", "SESSION_END". -/
inductive ExitReason
  | TP
  | REVERSAL
  | TIME_EXIT
  | SESSION_END
deriving DecidableEq

/-- One OHLC bar.  `time` is an absolute timestamp in minutes. -/
structure Candle where
  time : Nat
  high : ℚ
  low : ℚ
  close : ℚ
deriving DecidableEq

/-- The calendar date of a candle, `df['date']` in the source. -/
def Candle.date (c : Candle) : Nat := c.time / 1440

/-- The time of day of a candle, `df['time_only']` in the source. -/
def Candle.timeOnly (c : Candle) : Nat := c.time % 1440

/-- Calendar date of an absolute timestamp (used for `exit_time.date()`). -/
def dateOfTime (t : Nat) : Nat := t / 1440

/-- Weekday of a date ordinal; 5 and 6 mean Saturday and Sunday. -/
def weekdayOfDate (d : Nat) : Nat := d % 7

/-- `SCALE_LEVELS = [0.75, 0.50, 0.25]`. -/
def SCALE_LEVELS : List ℚ := [3/4, 1/2, 1/4]

/-- `TP_UNITS = 580.0`. -/
def TP_UNITS : ℚ := 580

/-- `INITIAL_BALANCE = 10000.0`. -/
def INITIAL_BALANCE : ℚ := 10000

/-- `MORNING_RANGE_START = time(10, 0)`, in minutes. -/
def MORNING_RANGE_START : Nat := 600

/-- `MORNING_RANGE_END = time(10, 15)`, in minutes. -/
def MORNING_RANGE_END : Nat := 615

/-- `MORNING_ENTRY_START = time(10, 15)`, in minutes. -/
def MORNING_ENTRY_START : Nat := 615

/-- `MORNING_ENTRY_CUTOFF = time(16, 29)`, in minutes. -/
def MORNING_ENTRY_CUTOFF : Nat := 989

/-- `AFTERNOON_RANGE_START = time(16, 30)`, in minutes. -/
def AFTERNOON_RANGE_START : Nat := 990

/-- `AFTERNOON_RANGE_END = time(16, 45)`, in minutes. -/
def AFTERNOON_RANGE_END : Nat := 1005

/-- `AFTERNOON_ENTRY_START = time(16, 45)`, in minutes. -/
def AFTERNOON_ENTRY_START : Nat := 1005

/-- `AFTERNOON_EXIT_TIME = time(23, 55)`, in minutes. -/
def AFTERNOON_EXIT_TIME : Nat := 1435

/-- Engine parameters that are configurable in the source: the symbol's
point value (`self.point`, set from symbol info; `0.00001` by default) and
the base lot size (`LOT_SIZE`, overridable from the command line). -/
structure Params where
  point : ℚ
  lot_size : ℚ
deriving DecidableEq

/-- An open trade, the immutable-at-open part of the source's `Trade`. -/
structure Trade where
  id : Nat
  direction : Direction
  entry_price : ℚ
  entry_time : Nat
  lot_size : ℚ
  tp_price : ℚ
  trade_type : TradeType
  session : SessionSlot
deriving DecidableEq

/-- A closed trade: the fields `Trade.close` fills in on top of the trade. -/
structure ClosedTrade where
  trade : Trade
  exit_price : ℚ
  exit_time : Nat
  exit_reason : ExitReason
  pips : ℚ
  profit : ℚ
deriving DecidableEq

/-- `Trade.close`: computes pips and profit exactly as the source does
(`pips = signed distance / point / 10`, `profit = pips * lot_size * 100`). -/
def Trade.close (t : Trade) (exit_price : ℚ) (exit_time : Nat)
    (exit_reason : ExitReason) (point : ℚ) : ClosedTrade :=
  let pips : ℚ :=
    match t.direction with
    | .BUY => (exit_price - t.entry_price) / point / 10
    | .SELL => (t.entry_price - exit_price) / point / 10
  let pip_value := t.lot_size * 100
  { trade := t, exit_price := exit_price, exit_time := exit_time,
    exit_reason := exit_reason, pips := pips, profit := pips * pip_value }

/-- `SessionState`: per-session mutable state of the backtester. -/
structure SessionState where
  session_type : SessionSlot
  range_high : Option ℚ := none
  range_low : Option ℚ := none
  breakout_direction : Option Direction := none
  breakout_price : Option ℚ := none
  tp_price : Option ℚ := none
  reversal_count : Nat := 0
  scale_levels : List ℚ := []
  executed_scales : List ℚ := []
  open_trades : List Trade := []
  session_start_balance : ℚ := 0
  session_max_drawdown : ℚ := 0
  session_peak_balance : ℚ := 0
  initial_breakout_done : Bool := false
  breakout_candle_time : Option Nat := none
deriving DecidableEq

/-- `SessionState.reset`: restores every field except `session_type`. -/
def SessionState.reset (s : SessionState) : SessionState :=
  { session_type := s.session_type }

/-- One entry of `self.daily_equity`. -/
structure DailyEquity where
  date : Nat
  weekday : Nat
  balance : ℚ
  daily_profit : ℚ
  trades_closed : Nat
deriving DecidableEq

/-- The `Backtester`'s mutable result-tracking state. -/
structure BTState where
  balance : ℚ
  all_trades : List Trade := []
  closed_trades : List ClosedTrade := []
  daily_equity : List DailyEquity := []
  morning : SessionState
  afternoon : SessionState
  morning_session_drawdowns : List ℚ := []
  afternoon_session_drawdowns : List ℚ := []
deriving DecidableEq

/-- Maximum of a price series (`Series.max` in pandas); the `0` default is
unreachable because `calculate_range` only calls it on lists of length at
least 3. -/
def seriesMax : List ℚ → ℚ
  | [] => 0
  | x :: xs => xs.foldl max x

/-- Minimum of a price series (`Series.min` in pandas); same proviso. -/
def seriesMin : List ℚ → ℚ
  | [] => 0
  | x :: xs => xs.foldl min x

/-- The mask of `Backtester.calculate_range`:
`(df['date'] == date) & (df['time_only'] >= start) & (df['time_only'] < end)`. -/
def rangeMask (date : Nat) (start_time end_time : Nat) (c : Candle) : Bool :=
  decide (c.date = date) && decide (start_time ≤ c.timeOnly)
    && decide (c.timeOnly < end_time)

/-- `Backtester.calculate_range`: needs at least three candles in the
window, otherwise `None`; on success the max of highs and min of lows. -/
def calculate_range (df : List Candle) (date : Nat)
    (start_time end_time : Nat) : Option (ℚ × ℚ) :=
  let range_candles := df.filter (rangeMask date start_time end_time)
  if range_candles.length < 3 then none
  else some (seriesMax (range_candles.map Candle.high),
             seriesMin (range_candles.map Candle.low))

/-- `Backtester.calculate_tp`. -/
def calculate_tp (p : Params) (breakout_price : ℚ) (direction : Direction) : ℚ :=
  let tp_distance := TP_UNITS * p.point
  match direction with
  | .BUY => breakout_price + tp_distance
  | .SELL => breakout_price - tp_distance

/-- `Backtester.calculate_scale_levels` (identical to the live bot's
`calculate_scale_levels`): for a reversal only the 50% level, else the
three `SCALE_LEVELS`; measured down from the high for BUY, up from the
low for SELL. -/
def calculate_scale_levels (range_high range_low : ℚ) (direction : Direction)
    (is_reversal : Bool) : List ℚ :=
  let range_size := range_high - range_low
  let percentages : List ℚ := if is_reversal then [1/2] else SCALE_LEVELS
  match direction with
  | .BUY => percentages.map (fun q => range_high - q * range_size)
  | .SELL => percentages.map (fun q => range_low + q * range_size)

/-- `Backtester.check_tp_hit`: `high >= tp` for BUY, `low <= tp` for SELL. -/
def check_tp_hit (t : Trade) (c : Candle) : Bool :=
  match t.direction with
  | .BUY => decide (t.tp_price ≤ c.high)
  | .SELL => decide (c.low ≤ t.tp_price)

/-- `Backtester.open_trade`: builds the trade (defaulting the lot size to
`LOT_SIZE` when none is supplied), appends it to `all_trades`, returns it. -/
def open_trade (p : Params) (bt : BTState) (direction : Direction)
    (entry_price : ℚ) (entry_time : Nat) (tp_price : ℚ)
    (trade_type : TradeType) (session : SessionSlot)
    (lot_size : Option ℚ) : BTState × Trade :=
  let lot := lot_size.getD p.lot_size
  let t : Trade :=
    { id := bt.all_trades.length, direction := direction,
      entry_price := entry_price, entry_time := entry_time,
      lot_size := lot, tp_price := tp_price,
      trade_type := trade_type, session := session }
  ({ bt with all_trades := bt.all_trades ++ [t] }, t)

/-- `Backtester.close_trade`: closes the trade, appends it to
`closed_trades`, and adds its profit to the balance. -/
def close_trade (p : Params) (bt : BTState) (t : Trade) (exit_price : ℚ)
    (exit_time : Nat) (exit_reason : ExitReason) : BTState :=
  let ct := t.close exit_price exit_time exit_reason p.point
  { bt with closed_trades := bt.closed_trades ++ [ct],
            balance := bt.balance + ct.profit }

/-- `Backtester.close_all_session_trades`: closes every open trade of the
session in order and empties `open_trades`. -/
def close_all_session_trades (p : Params) (bt : BTState) (s : SessionState)
    (exit_price : ℚ) (exit_time : Nat) (exit_reason : ExitReason) :
    BTState × SessionState :=
  (s.open_trades.foldl
      (fun b t => close_trade p b t exit_price exit_time exit_reason) bt,
   { s with open_trades := [] })

/-- `Backtester.calculate_floating_pnl`: mark-to-market P&L of the open
trades of a session at `current_price`. -/
def calculate_floating_pnl (p : Params) (s : SessionState)
    (current_price : ℚ) : ℚ :=
  s.open_trades.foldl
    (fun acc t =>
      let pips : ℚ :=
        match t.direction with
        | .BUY => (current_price - t.entry_price) / p.point / 10
        | .SELL => (t.entry_price - current_price) / p.point / 10
      let pip_value := t.lot_size * 100
      acc + pips * pip_value) 0

/-- One loop iteration of `Backtester.update_session_drawdown`: sample
the equity at `price`, update the peak only when the sampled price equals
the candle's close price, and update the maximum (most negative) drawdown. -/
def drawdown_sample (p : Params) (bt : BTState) (candle_close : ℚ)
    (s : SessionState) (price : ℚ) : SessionState :=
  let floating_pnl := calculate_floating_pnl p s price
  let current_equity := bt.balance + floating_pnl
  let s :=
    if price = candle_close ∧ s.session_peak_balance < current_equity then
      { s with session_peak_balance := current_equity }
    else s
  let drawdown := current_equity - s.session_peak_balance
  if drawdown < s.session_max_drawdown then
    { s with session_max_drawdown := drawdown }
  else s

/-- `Backtester.update_session_drawdown`: samples equity at the candle's
high, low and close (in that order). -/
def update_session_drawdown (p : Params) (bt : BTState) (s : SessionState)
    (candle_high candle_low candle_close : ℚ) : SessionState :=
  [candle_high, candle_low, candle_close].foldl
    (drawdown_sample p bt candle_close) s

/-- End-of-candle drawdown sampling: runs only while trades are open
(`if state.open_trades:` in both session loops). -/
def drawdown_phase (p : Params) (bt : BTState) (s : SessionState)
    (c : Candle) : SessionState :=
  if s.open_trades.isEmpty then s
  else update_session_drawdown p bt s c.high c.low c.close

/-- Arming on an initial breakout: direction, breakout price, TP, scale
ladder, `initial_breakout_done`, and the breakout candle's timestamp, as
in `process_morning_session` / `process_afternoon_session`.  No trade is
opened here. -/
def arm_breakout (p : Params) (s : SessionState) (c : Candle)
    (direction : Direction) : SessionState :=
  { s with breakout_direction := some direction,
           breakout_price := some c.close,
           tp_price := some (calculate_tp p c.close direction),
           scale_levels := calculate_scale_levels (s.range_high.getD 0)
             (s.range_low.getD 0) direction false,
           initial_breakout_done := true,
           breakout_candle_time := some c.time }

/-- Initial-breakout detection.  `canBreakout` is `can_enter_new` for the
morning session and `true` for the afternoon session (which has no entry
cutoff on its breakout check).  The `getD 0` defaults are unreachable:
the session loop only runs once the range is set. -/
def breakout_phase (p : Params) (canBreakout : Bool) (s : SessionState)
    (c : Candle) : SessionState :=
  if s.initial_breakout_done = false ∧ canBreakout = true then
    if s.range_high.getD 0 < c.close then arm_breakout p s c .BUY
    else if c.close < s.range_low.getD 0 then arm_breakout p s c .SELL
    else s
  else s

/-- Take-profit phase: if any open trade's TP is hit, the hit trades are
closed at the session TP price and then all remaining open trades are
closed at the same price (`close_all_session_trades`), all with reason TP. -/
def tp_phase (p : Params) (bt : BTState) (s : SessionState) (c : Candle) :
    BTState × SessionState :=
  if s.open_trades.isEmpty then (bt, s)
  else
    let hits := s.open_trades.filter (fun t => check_tp_hit t c)
    if hits.isEmpty then (bt, s)
    else
      let rest := s.open_trades.filter (fun t => !check_tp_hit t c)
      let tp := s.tp_price.getD 0
      let bt := hits.foldl (fun b t => close_trade p b t tp c.time .TP) bt
      close_all_session_trades p bt { s with open_trades := rest } tp c.time .TP

/-- Scale-level trigger test: `low <= level` for BUY, `high >= level` for
SELL. -/
def scale_triggered (direction : Direction) (c : Candle) (level : ℚ) : Bool :=
  match direction with
  | .BUY => decide (c.low ≤ level)
  | .SELL => decide (level ≤ c.high)

/-- Accumulator of the scale-ladder loop: the engine state plus the
session's `executed_scales` and `open_trades` lists being extended. -/
structure ScaleAcc where
  bt : BTState
  executed : List ℚ
  opens : List Trade
deriving DecidableEq

/-- Body of one scale-ladder loop iteration at ladder index `i`:
skips levels already in `executed_scales`; on a trigger inside the entry
window opens a SCALE trade (4x lot after a reversal, `(4 - index)`x lot on
the initial ladder) and consumes the level.  A trigger outside the entry
window is skipped without consuming the level. -/
def scale_entry (p : Params) (direction : Direction) (revCount : Nat)
    (tp : ℚ) (slot : SessionSlot) (canOpen : Bool) (c : Candle) (i : Nat)
    (level : ℚ) (acc : ScaleAcc) : ScaleAcc :=
  if level ∈ acc.executed then acc
  else if scale_triggered direction c level then
    if canOpen = false then acc
    else
      let lot : ℚ :=
        if 1 ≤ revCount then p.lot_size * 4
        else p.lot_size * ((4 : ℚ) - (i : ℚ))
      let bt_t := open_trade p acc.bt direction level c.time tp .SCALE slot
        (some lot)
      { bt := bt_t.1, executed := acc.executed ++ [level],
        opens := acc.opens ++ [bt_t.2] }
  else acc

/-- The scale-ladder loop (`for level_index, level in enumerate(...)`). -/
def scale_loop (p : Params) (direction : Direction) (revCount : Nat)
    (tp : ℚ) (slot : SessionSlot) (canOpen : Bool) (c : Candle) :
    Nat → List ℚ → ScaleAcc → ScaleAcc
  | _, [], acc => acc
  | i, level :: rest, acc =>
      scale_loop p direction revCount tp slot canOpen c (i + 1) rest
        (scale_entry p direction revCount tp slot canOpen c i level acc)

/-- The scale-check phase: only runs on candles strictly after the
breakout candle (`can_check_scales`); folds the ladder loop over
`scale_levels` and writes the accumulated lists back into the session. -/
def scale_phase (p : Params) (bt : BTState) (s : SessionState) (c : Candle)
    (direction : Direction) (slot : SessionSlot) (canOpen : Bool) :
    BTState × SessionState :=
  let canCheck : Bool :=
    match s.breakout_candle_time with
    | none => true
    | some t0 => decide (t0 < c.time)
  if canCheck then
    let acc := scale_loop p direction s.reversal_count (s.tp_price.getD 0)
      slot canOpen c 0 s.scale_levels
      { bt := bt, executed := s.executed_scales, opens := s.open_trades }
    (acc.bt, { s with executed_scales := acc.executed,
                      open_trades := acc.opens })
  else (bt, s)

/-- Reversal detection: armed BUY reverses on a close below the range low,
armed SELL on a close above the range high. -/
def reversal_signal (direction : Direction) (s : SessionState) (c : Candle) :
    Option Direction :=
  match direction with
  | .BUY => if c.close < s.range_low.getD 0 then some .SELL else none
  | .SELL => if s.range_high.getD 0 < c.close then some .BUY else none

/-- Reversal handling: close everything with reason REVERSAL at the close
price; outside the entry window terminate the session; on the first
reversal re-arm in the opposite direction with a fresh single-level 50%
ladder and an empty `executed_scales`; on any later reversal increment the
counter and terminate. -/
def reversal_phase (p : Params) (bt : BTState) (s : SessionState)
    (c : Candle) (new_direction : Direction) (canOpen : Bool) :
    BTState × SessionState :=
  let bts :=
    if s.open_trades.isEmpty then (bt, s)
    else close_all_session_trades p bt s c.close c.time .REVERSAL
  let bt := bts.1
  let s := bts.2
  if canOpen = false then
    (bt, { s with breakout_direction := none })
  else if s.reversal_count = 0 then
    (bt, { s with reversal_count := s.reversal_count + 1,
                  breakout_direction := some new_direction,
                  breakout_price := some c.close,
                  tp_price := some (calculate_tp p c.close new_direction),
                  scale_levels := calculate_scale_levels
                    (s.range_high.getD 0) (s.range_low.getD 0)
                    new_direction true,
                  executed_scales := [] })
  else
    (bt, { s with reversal_count := s.reversal_count + 1,
                  breakout_direction := none })

/-- Whether the initial-breakout check may fire on this candle: the
morning session requires `time_only <= MORNING_ENTRY_CUTOFF`
(`can_enter_new`); the afternoon session has no such gate. -/
def can_breakout (slot : SessionSlot) (c : Candle) : Bool :=
  match slot with
  | .MORNING => decide (c.timeOnly ≤ MORNING_ENTRY_CUTOFF)
  | .AFTERNOON => true

/-- Whether new positions may be opened on this candle: the morning
session's entry cutoff, respectively the afternoon session's exit time. -/
def can_open_new (slot : SessionSlot) (c : Candle) : Bool :=
  match slot with
  | .MORNING => decide (c.timeOnly ≤ MORNING_ENTRY_CUTOFF)
  | .AFTERNOON => decide (c.timeOnly < AFTERNOON_EXIT_TIME)

/-- One iteration of the per-candle session loop, shared between
`process_morning_session` and `process_afternoon_session` (the two bodies
in the source are identical up to the gates `can_breakout` / `can_open_new`
and the session tag): breakout detection, then — while armed — the TP
check, the scale-ladder check, and the reversal check (whose branch skips
the drawdown update, mirroring the loop's `continue`), and finally the
drawdown sampling. -/
def session_step (p : Params) (slot : SessionSlot)
    (bts : BTState × SessionState) (c : Candle) : BTState × SessionState :=
  let bt := bts.1
  let s := bts.2
  let canOpen := can_open_new slot c
  let s := breakout_phase p (can_breakout slot c) s c
  match s.breakout_direction with
  | none => (bt, drawdown_phase p bt s c)
  | some direction =>
      let bts := tp_phase p bt s c
      let bts := scale_phase p bts.1 bts.2 c direction slot canOpen
      let bt := bts.1
      let s := bts.2
      match reversal_signal direction s c with
      | none => (bt, drawdown_phase p bt s c)
      | some nd => reversal_phase p bt s c nd canOpen

/-- Start-of-session bookkeeping: `session_start_balance`,
`session_peak_balance` and `session_max_drawdown` as set at the top of
both `process_*_session` methods. -/
def session_init (bt : BTState) (s : SessionState) : SessionState :=
  { s with session_start_balance := bt.balance,
           session_peak_balance := bt.balance,
           session_max_drawdown := 0 }

/-- End-of-session bookkeeping: a strictly negative session max drawdown
is appended to the per-slot drawdown list. -/
def record_session_drawdown (bt : BTState) (s : SessionState)
    (slot : SessionSlot) : BTState :=
  if s.session_max_drawdown < 0 then
    match slot with
    | .MORNING =>
        { bt with morning_session_drawdowns :=
            bt.morning_session_drawdowns ++ [s.session_max_drawdown] }
    | .AFTERNOON =>
        { bt with afternoon_session_drawdowns :=
            bt.afternoon_session_drawdowns ++ [s.session_max_drawdown] }
  else bt

/-- Range setup shared by both session drivers: compute the range only if
it is not already set; leave it unset when `calculate_range` declines. -/
def range_setup (dfDay : List Candle) (date : Nat)
    (start_time end_time : Nat) (s : SessionState) : SessionState :=
  if s.range_high = none then
    match calculate_range dfDay date start_time end_time with
    | some hl => { s with range_high := some hl.1, range_low := some hl.2 }
    | none => s
  else s

/-- `Backtester.process_morning_session`: session bookkeeping, range
setup (skipping the session when the range stays undefined), then the
per-candle loop over the candles at or after `MORNING_ENTRY_START`, and
the drawdown record.  The morning session performs no end-of-data close:
trades still open after the last candle simply remain in `open_trades`. -/
def process_morning_session (p : Params) (bt : BTState)
    (dfDay : List Candle) (date : Nat) : BTState :=
  let s := session_init bt bt.morning
  let s := range_setup dfDay date MORNING_RANGE_START MORNING_RANGE_END s
  if s.range_high = none then { bt with morning := s }
  else
    let entry_candles :=
      dfDay.filter (fun c => decide (MORNING_ENTRY_START ≤ c.timeOnly))
    let bts := entry_candles.foldl (session_step p .MORNING) (bt, s)
    record_session_drawdown { bts.1 with morning := bts.2 } bts.2 .MORNING

/-- The afternoon per-candle loop.  A candle at or after
`AFTERNOON_EXIT_TIME` force-closes any open trades with reason TIME_EXIT
and breaks out of the loop (no further candles are processed). -/
def afternoon_loop (p : Params) (bts : BTState × SessionState) :
    List Candle → BTState × SessionState
  | [] => bts
  | c :: cs =>
      if AFTERNOON_EXIT_TIME ≤ c.timeOnly then
        if bts.2.open_trades.isEmpty then bts
        else close_all_session_trades p bts.1 bts.2 c.close c.time .TIME_EXIT
      else afternoon_loop p (session_step p .AFTERNOON bts c) cs

/-- `Backtester.process_afternoon_session`: like the morning driver but
with the afternoon windows, the TIME_EXIT break inside the loop, and a
final force close: if trades are still open once the candle data ends,
they are closed at the last entry candle's close with reason SESSION_END.
(The `none` branch of `getLast?` models the `IndexError` the source would
raise if trades were open with no entry candles; it is unreachable from
`run`, where each day starts with empty `open_trades`.) -/
def process_afternoon_session (p : Params) (bt : BTState)
    (dfDay : List Candle) (date : Nat) : BTState :=
  let s := session_init bt bt.afternoon
  let s := range_setup dfDay date AFTERNOON_RANGE_START AFTERNOON_RANGE_END s
  if s.range_high = none then { bt with afternoon := s }
  else
    let entry_candles :=
      dfDay.filter (fun c => decide (AFTERNOON_ENTRY_START ≤ c.timeOnly))
    let bts := afternoon_loop p (bt, s) entry_candles
    let bts :=
      if bts.2.open_trades.isEmpty then bts
      else
        match entry_candles.getLast? with
        | some lc =>
            close_all_session_trades p bts.1 bts.2 lc.close lc.time
              .SESSION_END
        | none => bts
    record_session_drawdown { bts.1 with afternoon := bts.2 } bts.2
      .AFTERNOON

/-- The sorted unique trading dates of the candle data
(`sorted(df['date'].unique())`). -/
def uniqueDates (df : List Candle) : List Nat :=
  ((df.map Candle.date).dedup).mergeSort (fun a b => decide (a ≤ b))

/-- One day of `Backtester.run`: skip weekends, reset both session states,
slice the day's candles, process both sessions, and record the daily
equity snapshot. -/
def process_day (p : Params) (df : List Candle) (bt : BTState)
    (date : Nat) : BTState :=
  if weekdayOfDate date = 5 ∨ weekdayOfDate date = 6 then bt
  else
    let bt := { bt with morning := bt.morning.reset,
                        afternoon := bt.afternoon.reset }
    let df_day := df.filter (fun c => decide (c.date = date))
    if df_day.isEmpty then bt
    else
      let balance_start := bt.balance
      let bt := process_morning_session p bt df_day date
      let bt := process_afternoon_session p bt df_day date
      { bt with daily_equity := bt.daily_equity ++
          [{ date := date, weekday := weekdayOfDate date,
             balance := bt.balance,
             daily_profit := bt.balance - balance_start,
             trades_closed := (bt.closed_trades.filter
               (fun ct => decide (dateOfTime ct.exit_time = date))).length }] }

/-- The initial `Backtester` state: the starting balance and two fresh
session states. -/
def initial_state : BTState :=
  { balance := INITIAL_BALANCE,
    morning := { session_type := .MORNING },
    afternoon := { session_type := .AFTERNOON } }

/-- `Backtester.run` restricted to its simulation core: replay the candle
data day by day from the initial state.  (Statistics generation reads the
resulting state and is not modelled.) -/
def runBacktest (p : Params) (df : List Candle) : BTState :=
  (uniqueDates df).foldl (process_day p df) initial_state

/-- Scale-level trigger test of the live bot (`trading_bot.py`), on the
latest candle's high/low. -/
def live_triggered (direction : Direction) (candle_high candle_low : ℚ)
    (level : ℚ) : Bool :=
  match direction with
  | .BUY => decide (candle_low ≤ level)
  | .SELL => decide (level ≤ candle_high)

/-- `check_and_execute_scaling` of `trading_bot.py`.  The order collaborator
`open_position` is abstracted as `placeOrder`, receiving the direction,
lot size, TP price and the level (the level appears in the order comment
in the source) and returning an optional ticket.  A triggered level is
dropped from the returned remaining levels whether or not the order
succeeds; the ticket, when present, is appended to the session's position
list.  The caller stores the returned remaining levels back into the
session state, so a dropped level can never retrigger. -/
def live_check_and_execute_scaling
    (placeOrder : Direction → ℚ → ℚ → ℚ → Option Nat) (lot_base : ℚ)
    (candle_high candle_low tp_price : ℚ) (direction : Direction)
    (scale_levels : List ℚ) (reversal_count : Nat)
    (positions : List Nat) : List ℚ × List Nat :=
  if scale_levels.isEmpty then (scale_levels, positions)
  else
    let lot_size := if 1 ≤ reversal_count then lot_base * 2 else lot_base
    scale_levels.foldl
      (fun acc level =>
        if live_triggered direction candle_high candle_low level then
          match placeOrder direction lot_size tp_price level with
          | some ticket => (acc.1, acc.2 ++ [ticket])
          | none => acc
        else (acc.1 ++ [level], acc.2))
      ([], positions)

/-- Sum of realized profits over a list of closed trades. -/
def profitSum (l : List ClosedTrade) : ℚ :=
  (l.map ClosedTrade.profit).sum

/-- Parameters of the specification's worked scenarios: the default point
value `0.00001` and the default lot size `0.01`. -/
def scenarioParams : Params := { point := 0.00001, lot_size := 0.01 }

/-- Morning session armed LONG as in the specification's Scenario A:
range high 1.10500, low 1.10000, breakout close 1.10600, TP 1.11180,
scale ladder computed by the engine, nothing triggered yet. -/
def scenarioArmed : SessionState :=
  { session_type := .MORNING,
    range_high := some 1.105, range_low := some 1.1,
    breakout_direction := some .BUY,
    breakout_price := some 1.106,
    tp_price := some 1.1118,
    scale_levels := calculate_scale_levels 1.105 1.1 .BUY false,
    initial_breakout_done := true,
    breakout_candle_time := some 615 }

/-- Engine state holding `scenarioArmed` as the morning session. -/
def scenarioArmedBT : BTState :=
  { balance := 10000, morning := scenarioArmed,
    afternoon := { session_type := .AFTERNOON } }

/-- The Scenario B candle: a later candle (10:20) with low 1.10100. -/
def scenarioBCandle : Candle :=
  { time := 620, high := 1.1045, low := 1.101, close := 1.104 }

/-- A scale trade opened earlier at the 1.10125 level with the 4x lot. -/
def scenarioScaleTrade : Trade :=
  { id := 0, direction := .BUY, entry_price := 1.10125, entry_time := 618,
    lot_size := 0.04, tp_price := 1.1118, trade_type := .SCALE,
    session := .MORNING }

/-- Armed LONG session with one open scale trade and one consumed level
(the other two levels of the ladder are still untriggered). -/
def scenarioOpenSession : SessionState :=
  { scenarioArmed with executed_scales := [1.10125],
                       open_trades := [scenarioScaleTrade] }

/-- Engine state for `scenarioOpenSession`. -/
def scenarioOpenBT : BTState :=
  { balance := 10000, all_trades := [scenarioScaleTrade],
    morning := scenarioOpenSession,
    afternoon := { session_type := .AFTERNOON } }

/-- The Scenario C candle: closes at 1.09900, below the range low. -/
def scenarioCCandle : Candle :=
  { time := 640, high := 1.0995, low := 1.0985, close := 1.099 }

/-- Armed LONG session with one open trade and the whole ladder already
consumed (every scale level is in `executed_scales`). -/
def scenarioExhaustedSession : SessionState :=
  { scenarioArmed with executed_scales := [1.10125, 1.1025, 1.10375],
                       open_trades := [scenarioScaleTrade] }

/-- Engine state for `scenarioExhaustedSession`. -/
def scenarioExhaustedBT : BTState :=
  { balance := 10000, all_trades := [scenarioScaleTrade],
    morning := scenarioExhaustedSession,
    afternoon := { session_type := .AFTERNOON } }

/-- A one-day candle feed whose morning session arms LONG and triggers a
single scale entry that is still open when the day's data ends. -/
def morningLeftoverDay : List Candle :=
  [ { time := 600, high := 1.105, low := 1.1, close := 1.102 },
    { time := 605, high := 1.104, low := 1.101, close := 1.103 },
    { time := 610, high := 1.1045, low := 1.1005, close := 1.102 },
    { time := 615, high := 1.1065, low := 1.102, close := 1.106 },
    { time := 620, high := 1.105, low := 1.1035, close := 1.104 } ]

/-- A one-day candle feed (day 1) whose afternoon session arms LONG,
opens three scale entries, and then runs out of data before the exit
time, forcing the SESSION_END close. -/
def afternoonEndDay : List Candle :=
  [ { time := 2430, high := 1.105, low := 1.1, close := 1.102 },
    { time := 2435, high := 1.104, low := 1.101, close := 1.103 },
    { time := 2440, high := 1.1045, low := 1.1005, close := 1.102 },
    { time := 2445, high := 1.1065, low := 1.102, close := 1.106 },
    { time := 2450, high := 1.104, low := 1.101, close := 1.103 } ]

/-- A morning session whose range is set but which has not yet armed. -/
def preArmedSession : SessionState :=
  { session_type := .MORNING, range_high := some 1.105,
    range_low := some 1.1 }

/-- The Scenario A breakout candle: closes at 1.10600, above the range. -/
def breakoutCandle : Candle :=
  { time := 615, high := 1.1065, low := 1.102, close := 1.106 }

/-- A candle carrying the same timestamp as the recorded breakout candle. -/
def sameTimeCandle : Candle :=
  { time := 615, high := 1.104, low := 1.103, close := 1.1045 }

/-- The session-counter invariant maintained by the per-candle step: the
reversal counter never passes 2, an armed session has seen at most one
reversal and has its initial breakout done, and a session that has
reversed at least once has its initial breakout done. -/
def SInv (s : SessionState) : Prop :=
  s.reversal_count ≤ 2 ∧
  (s.breakout_direction.isSome = true →
    s.reversal_count ≤ 1 ∧ s.initial_breakout_done = true) ∧
  (1 ≤ s.reversal_count → s.initial_breakout_done = true)

instance (s : SessionState) : Decidable (SInv s) := by
  unfold SInv
  infer_instance

/-- Extension relation between engine states: trades and closed trades are
only appended, the balance moves exactly by the sum of the newly closed
trades' profits, and every newly closed trade's exit reason satisfies `R`. -/
def BTExt (R : ExitReason → Prop) (bt bt' : BTState) : Prop :=
  ∃ ts cts,
    bt'.all_trades = bt.all_trades ++ ts ∧
    bt'.closed_trades = bt.closed_trades ++ cts ∧
    bt'.balance = bt.balance + profitSum cts ∧
    ∀ ct ∈ cts, R ct.exit_reason

theorem profitSum_nil : profitSum [] = 0 := rfl

theorem profitSum_append (a b : List ClosedTrade) :
    profitSum (a ++ b) = profitSum a + profitSum b := by
  simp [profitSum]

theorem BTExt.refl (R : ExitReason → Prop) (bt : BTState) : BTExt R bt bt :=
  ⟨[], [], by simp, by simp, by simp [profitSum], by simp⟩

theorem BTExt.trans {R : ExitReason → Prop} {a b c : BTState}
    (h₁ : BTExt R a b) (h₂ : BTExt R b c) : BTExt R a c := by
  obtain ⟨ts₁, cts₁, ha₁, hc₁, hb₁, hr₁⟩ := h₁
  obtain ⟨ts₂, cts₂, ha₂, hc₂, hb₂, hr₂⟩ := h₂
  refine ⟨ts₁ ++ ts₂, cts₁ ++ cts₂, ?_, ?_, ?_, ?_⟩
  · simp [ha₂, ha₁]
  · simp [hc₂, hc₁]
  · simp [hb₂, hb₁, profitSum_append, add_assoc]
  · intro ct hct
    rcases List.mem_append.mp hct with h | h
    · exact hr₁ ct h
    · exact hr₂ ct h

theorem BTExt.mono {R R' : ExitReason → Prop} {a b : BTState}
    (h : BTExt R a b) (imp : ∀ r, R r → R' r) : BTExt R' a b := by
  obtain ⟨ts, cts, h₁, h₂, h₃, h₄⟩ := h
  exact ⟨ts, cts, h₁, h₂, h₃, fun ct hct => imp _ (h₄ ct hct)⟩

theorem Trade.close_exit_reason (t : Trade) (pr : ℚ) (tm : Nat)
    (r : ExitReason) (pt : ℚ) : (t.close pr tm r pt).exit_reason = r := rfl

theorem closes_foldl (p : Params) (pr : ℚ) (tm : Nat) (r : ExitReason) :
    ∀ (ts : List Trade) (bt : BTState),
    ts.foldl (fun b t => close_trade p b t pr tm r) bt =
      { bt with
        closed_trades := bt.closed_trades ++
          ts.map (fun t => t.close pr tm r p.point),
        balance := bt.balance +
          profitSum (ts.map (fun t => t.close pr tm r p.point)) }
  | [], bt => by simp [profitSum]
  | t :: ts, bt => by
    rw [List.foldl_cons, closes_foldl p pr tm r ts]
    simp [close_trade, profitSum, add_assoc]

theorem close_all_session_trades_spec (p : Params) (bt : BTState)
    (s : SessionState) (pr : ℚ) (tm : Nat) (r : ExitReason) :
    close_all_session_trades p bt s pr tm r =
      ({ bt with
         closed_trades := bt.closed_trades ++
           s.open_trades.map (fun t => t.close pr tm r p.point),
         balance := bt.balance +
           profitSum (s.open_trades.map (fun t => t.close pr tm r p.point)) },
       { s with open_trades := [] }) := by
  simp [close_all_session_trades, closes_foldl]

theorem close_all_session_trades_ext (p : Params) (bt : BTState)
    (s : SessionState) (pr : ℚ) (tm : Nat) (r : ExitReason) :
    BTExt (fun x => x = r) bt
      (close_all_session_trades p bt s pr tm r).1 := by
  rw [close_all_session_trades_spec]
  exact ⟨[], _, by simp, rfl, rfl, by
    intro ct hct
    obtain ⟨t, _, ht⟩ := List.mem_map.mp hct
    rw [← ht]
    rfl⟩

theorem closes_foldl_ext (p : Params) (pr : ℚ) (tm : Nat) (r : ExitReason)
    (ts : List Trade) (bt : BTState) :
    BTExt (fun x => x = r) bt
      (ts.foldl (fun b t => close_trade p b t pr tm r) bt) := by
  rw [closes_foldl]
  refine ⟨[], ts.map (fun t => t.close pr tm r p.point), by simp, rfl, rfl, ?_⟩
  intro ct hct
  obtain ⟨t, _, ht⟩ := List.mem_map.mp hct
  rw [← ht]
  rfl

theorem tp_phase_bt_ext (p : Params) (bt : BTState) (s : SessionState)
    (c : Candle) : BTExt (fun r => r = .TP) bt (tp_phase p bt s c).1 := by
  simp only [tp_phase]
  split_ifs with h₁ h₂
  · exact BTExt.refl _ bt
  · exact BTExt.refl _ bt
  · exact BTExt.trans
      (closes_foldl_ext p (s.tp_price.getD 0) c.time .TP _ bt)
      (close_all_session_trades_ext p _ _ _ c.time .TP)

theorem tp_phase_sess (p : Params) (bt : BTState) (s : SessionState)
    (c : Candle) :
    ∃ ot, (tp_phase p bt s c).2 = { s with open_trades := ot } := by
  simp only [tp_phase]
  split_ifs with h₁ h₂
  · exact ⟨s.open_trades, rfl⟩
  · exact ⟨s.open_trades, rfl⟩
  · exact ⟨[], rfl⟩

theorem scale_entry_bt (p : Params) (d : Direction) (rc : Nat) (tp : ℚ)
    (slot : SessionSlot) (co : Bool) (c : Candle) (i : Nat) (level : ℚ)
    (acc : ScaleAcc) :
    ∃ ts, (scale_entry p d rc tp slot co c i level acc).bt =
      { acc.bt with all_trades := acc.bt.all_trades ++ ts } := by
  unfold scale_entry
  split_ifs with h₁ h₂ h₃ h₄
  · exact ⟨[], by simp⟩
  · exact ⟨[], by simp⟩
  · exact ⟨_, rfl⟩
  · exact ⟨_, rfl⟩
  · exact ⟨[], by simp⟩

theorem scale_loop_bt (p : Params) (d : Direction) (rc : Nat) (tp : ℚ)
    (slot : SessionSlot) (co : Bool) (c : Candle) :
    ∀ (ls : List ℚ) (i : Nat) (acc : ScaleAcc),
    ∃ ts, (scale_loop p d rc tp slot co c i ls acc).bt =
      { acc.bt with all_trades := acc.bt.all_trades ++ ts }
  | [], i, acc => ⟨[], by simp [scale_loop]⟩
  | l :: rest, i, acc => by
    rw [scale_loop]
    obtain ⟨ts₁, h₁⟩ := scale_entry_bt p d rc tp slot co c i l acc
    obtain ⟨ts₂, h₂⟩ := scale_loop_bt p d rc tp slot co c rest (i + 1)
      (scale_entry p d rc tp slot co c i l acc)
    exact ⟨ts₁ ++ ts₂, by rw [h₂, h₁]; simp⟩

theorem scale_phase_bt (p : Params) (bt : BTState) (s : SessionState)
    (c : Candle) (d : Direction) (slot : SessionSlot) (co : Bool) :
    ∃ ts, (scale_phase p bt s c d slot co).1 =
      { bt with all_trades := bt.all_trades ++ ts } := by
  simp only [scale_phase]
  split_ifs with h₁
  · exact scale_loop_bt p d s.reversal_count (s.tp_price.getD 0) slot co c
      s.scale_levels 0
      { bt := bt, executed := s.executed_scales, opens := s.open_trades }
  · exact ⟨[], by simp⟩

theorem scale_phase_bt_ext (p : Params) (bt : BTState) (s : SessionState)
    (c : Candle) (d : Direction) (slot : SessionSlot) (co : Bool)
    (R : ExitReason → Prop) :
    BTExt R bt (scale_phase p bt s c d slot co).1 := by
  obtain ⟨ts, h⟩ := scale_phase_bt p bt s c d slot co
  exact ⟨ts, [], by simp [h], by simp [h], by simp [h, profitSum], by simp⟩

theorem scale_phase_sess (p : Params) (bt : BTState) (s : SessionState)
    (c : Candle) (d : Direction) (slot : SessionSlot) (co : Bool) :
    ∃ ex ot, (scale_phase p bt s c d slot co).2 =
      { s with executed_scales := ex, open_trades := ot } := by
  simp only [scale_phase]
  split_ifs with h₁
  · exact ⟨_, _, rfl⟩
  · exact ⟨s.executed_scales, s.open_trades, rfl⟩

theorem drawdown_sample_shape (p : Params) (bt : BTState) (cl : ℚ)
    (s : SessionState) (price : ℚ) :
    ∃ pk dd, drawdown_sample p bt cl s price =
      { s with session_peak_balance := pk, session_max_drawdown := dd } := by
  simp only [drawdown_sample]
  split_ifs <;> exact ⟨_, _, rfl⟩

theorem update_session_drawdown_shape (p : Params) (bt : BTState)
    (s : SessionState) (h l cl : ℚ) :
    ∃ pk dd, update_session_drawdown p bt s h l cl =
      { s with session_peak_balance := pk, session_max_drawdown := dd } := by
  show ∃ pk dd, drawdown_sample p bt cl
      (drawdown_sample p bt cl (drawdown_sample p bt cl s h) l) cl = _
  obtain ⟨pk₁, dd₁, e₁⟩ := drawdown_sample_shape p bt cl s h
  rw [e₁]
  obtain ⟨pk₂, dd₂, e₂⟩ := drawdown_sample_shape p bt cl
    { s with session_peak_balance := pk₁, session_max_drawdown := dd₁ } l
  rw [e₂]
  obtain ⟨pk₃, dd₃, e₃⟩ := drawdown_sample_shape p bt cl
    { s with session_peak_balance := pk₂, session_max_drawdown := dd₂ } cl
  rw [e₃]
  exact ⟨_, _, rfl⟩

theorem drawdown_phase_shape (p : Params) (bt : BTState) (s : SessionState)
    (c : Candle) :
    ∃ pk dd, drawdown_phase p bt s c =
      { s with session_peak_balance := pk, session_max_drawdown := dd } := by
  unfold drawdown_phase
  split_ifs with h₁
  · exact ⟨s.session_peak_balance, s.session_max_drawdown, rfl⟩
  · exact update_session_drawdown_shape p bt s c.high c.low c.close

theorem reversal_phase_bt_ext (p : Params) (bt : BTState) (s : SessionState)
    (c : Candle) (nd : Direction) (co : Bool) :
    BTExt (fun r => r = .REVERSAL) bt (reversal_phase p bt s c nd co).1 := by
  simp only [reversal_phase]
  split_ifs with h₁ h₂ h₃ <;>
    first
      | exact BTExt.refl _ bt
      | exact close_all_session_trades_ext p bt s c.close c.time .REVERSAL

theorem session_step_bt_ext (p : Params) (slot : SessionSlot) (bt : BTState)
    (s : SessionState) (c : Candle) :
    BTExt (fun r => r = .TP ∨ r = .REVERSAL) bt
      (session_step p slot (bt, s) c).1 := by
  unfold session_step
  rcases hdir : (breakout_phase p (can_breakout slot c) s c).breakout_direction
    with _ | d
  · simp only [hdir]
    exact BTExt.refl _ bt
  · simp only [hdir]
    refine BTExt.trans (BTExt.mono
      (tp_phase_bt_ext p bt (breakout_phase p (can_breakout slot c) s c) c)
      (fun r h => Or.inl h)) ?_
    set bts₁ := tp_phase p bt (breakout_phase p (can_breakout slot c) s c) c
    refine BTExt.trans (BTExt.mono
      (scale_phase_bt_ext p bts₁.1 bts₁.2 c d slot (can_open_new slot c)
        (fun r => r = .TP ∨ r = .REVERSAL)) (fun r h => h)) ?_
    set bts₂ := scale_phase p bts₁.1 bts₁.2 c d slot (can_open_new slot c)
    rcases hsig : reversal_signal d bts₂.2 c with _ | nd
    · simpa using BTExt.refl
        (fun r => r = ExitReason.TP ∨ r = ExitReason.REVERSAL) bts₂.1
    · simpa using BTExt.mono (reversal_phase_bt_ext p bts₂.1 bts₂.2 c nd
        (can_open_new slot c)) (fun r h => Or.inr h)
theorem breakout_phase_cases (p : Params) (g : Bool) (s : SessionState)
    (c : Candle) :
    breakout_phase p g s c = s ∨
      (s.initial_breakout_done = false ∧
        ∃ d, breakout_phase p g s c = arm_breakout p s c d) := by
  unfold breakout_phase
  split_ifs with h₁ h₂ h₃
  · exact Or.inr ⟨h₁.1, .BUY, rfl⟩
  · exact Or.inr ⟨h₁.1, .SELL, rfl⟩
  · exact Or.inl rfl
  · exact Or.inl rfl

theorem reversal_phase_sinv (p : Params) (bt : BTState) (s : SessionState)
    (c : Candle) (nd : Direction) (co : Bool)
    (hcount : s.reversal_count ≤ 1) (hdone : s.initial_breakout_done = true) :
    SInv (reversal_phase p bt s c nd co).2 := by
  simp only [reversal_phase, close_all_session_trades_spec]
  split_ifs <;>
    refine ⟨?_, fun hh => ⟨?_, ?_⟩, fun hh => ?_⟩ <;> simp_all <;> omega

theorem session_step_sinv (p : Params) (slot : SessionSlot) (bt : BTState)
    (s : SessionState) (c : Candle) (h : SInv s) :
    SInv (session_step p slot (bt, s) c).2 := by
  have hs1 : SInv (breakout_phase p (can_breakout slot c) s c) := by
    rcases breakout_phase_cases p (can_breakout slot c) s c with
      he | ⟨hdone, d, he⟩
    · rw [he]; exact h
    · rw [he]
      have hc0 : s.reversal_count = 0 := by
        by_contra hne
        have h1 : 1 ≤ s.reversal_count := Nat.one_le_iff_ne_zero.mpr hne
        have := h.2.2 h1
        rw [hdone] at this
        exact Bool.noConfusion this
      exact ⟨by simp [arm_breakout, hc0],
             fun _ => ⟨by simp [arm_breakout, hc0], by simp [arm_breakout]⟩,
             fun _ => by simp [arm_breakout]⟩
  unfold session_step
  rcases hdir : (breakout_phase p (can_breakout slot c) s c).breakout_direction
    with _ | d
  · simp only [hdir]
    obtain ⟨pk, dd, he⟩ :=
      drawdown_phase_shape p bt (breakout_phase p (can_breakout slot c) s c) c
    rw [he]
    exact hs1
  · simp only [hdir]
    obtain ⟨ot, he₁⟩ :=
      tp_phase_sess p bt (breakout_phase p (can_breakout slot c) s c) c
    set s₁ := breakout_phase p (can_breakout slot c) s c
    set bts₁ := tp_phase p bt s₁ c
    obtain ⟨ex, ot₂, he₂⟩ :=
      scale_phase_sess p bts₁.1 bts₁.2 c d slot (can_open_new slot c)
    set bts₂ := scale_phase p bts₁.1 bts₁.2 c d slot (can_open_new slot c)
    have hs2 : SInv bts₂.2 := by
      rw [he₂, he₁]
      exact hs1
    have hdir2 : bts₂.2.breakout_direction = some d := by
      rw [he₂, he₁]
      exact hdir
    rcases hsig : reversal_signal d bts₂.2 c with _ | nd
    · obtain ⟨pk, dd, he⟩ := drawdown_phase_shape p bts₂.1 bts₂.2 c
      simp only [he]
      exact hs2
    · simp only []
      have hdirsome : bts₂.2.breakout_direction.isSome = true := by
        rw [hdir2]; rfl
      exact reversal_phase_sinv p bts₂.1 bts₂.2 c nd (can_open_new slot c)
        (hs2.2.1 hdirsome).1 (hs2.2.1 hdirsome).2

theorem session_step_frozen (p : Params) (slot : SessionSlot) (bt : BTState)
    (s : SessionState) (c : Candle) (h : SInv s)
    (h2 : s.reversal_count = 2) :
    (session_step p slot (bt, s) c).1 = bt ∧
      ∃ pk dd, (session_step p slot (bt, s) c).2 =
        { s with session_peak_balance := pk, session_max_drawdown := dd } := by
  have hdone : s.initial_breakout_done = true := h.2.2 (by omega)
  have hdirn : s.breakout_direction = none := by
    cases hd : s.breakout_direction with
    | none => rfl
    | some d =>
        have := (h.2.1 (by simp [hd])).1
        omega
  have hbp : breakout_phase p (can_breakout slot c) s c = s := by
    unfold breakout_phase
    rw [if_neg]
    simp [hdone]
  unfold session_step
  simp only [hbp, hdirn]
  obtain ⟨pk, dd, hdd⟩ := drawdown_phase_shape p bt s c
  rw [hdirn] at hdd
  exact ⟨trivial, pk, dd, hdd⟩

theorem foldl_sinv (p : Params) (slot : SessionSlot) :
    ∀ (cs : List Candle) (bt : BTState) (s : SessionState), SInv s →
    SInv ((cs.foldl (session_step p slot) (bt, s)).2)
  | [], bt, s, h => h
  | c :: cs, bt, s, h => by
    rw [List.foldl_cons]
    exact foldl_sinv p slot cs (session_step p slot (bt, s) c).1
      (session_step p slot (bt, s) c).2 (session_step_sinv p slot bt s c h)

theorem foldl_frozen (p : Params) (slot : SessionSlot) :
    ∀ (cs : List Candle) (bt : BTState) (s : SessionState), SInv s →
    s.reversal_count = 2 →
    (cs.foldl (session_step p slot) (bt, s)).1 = bt
  | [], bt, s, h, h2 => rfl
  | c :: cs, bt, s, h, h2 => by
    obtain ⟨hbt, pk, dd, hs⟩ := session_step_frozen p slot bt s c h h2
    have hpair : session_step p slot (bt, s) c =
        (bt, (session_step p slot (bt, s) c).2) := Prod.ext hbt rfl
    have h' : SInv (session_step p slot (bt, s) c).2 :=
      session_step_sinv p slot bt s c h
    have h2' : (session_step p slot (bt, s) c).2.reversal_count = 2 := by
      rw [hs]
      exact h2
    rw [List.foldl_cons, hpair]
    exact foldl_frozen p slot cs bt (session_step p slot (bt, s) c).2 h' h2'

theorem aloop_sinv (p : Params) :
    ∀ (cs : List Candle) (bt : BTState) (s : SessionState), SInv s →
    SInv ((afternoon_loop p (bt, s) cs).2)
  | [], bt, s, h => h
  | c :: cs, bt, s, h => by
    rw [afternoon_loop]
    split_ifs with h₁ h₂
    · exact h
    · rw [close_all_session_trades_spec]
      exact ⟨h.1, h.2.1, h.2.2⟩
    · exact aloop_sinv p cs (session_step p .AFTERNOON (bt, s) c).1
        (session_step p .AFTERNOON (bt, s) c).2
        (session_step_sinv p .AFTERNOON bt s c h)

theorem aloop_frozen (p : Params) :
    ∀ (cs : List Candle) (bt : BTState) (s : SessionState), SInv s →
    s.reversal_count = 2 →
    (afternoon_loop p (bt, s) cs).1.all_trades = bt.all_trades
  | [], bt, s, h, h2 => rfl
  | c :: cs, bt, s, h, h2 => by
    rw [afternoon_loop]
    split_ifs with h₁ h₂
    · rfl
    · rw [close_all_session_trades_spec]
    · obtain ⟨hbt, pk, dd, hs⟩ := session_step_frozen p .AFTERNOON bt s c h h2
      have hpair : session_step p .AFTERNOON (bt, s) c =
          (bt, (session_step p .AFTERNOON (bt, s) c).2) := Prod.ext hbt rfl
      have h' : SInv (session_step p .AFTERNOON (bt, s) c).2 :=
        session_step_sinv p .AFTERNOON bt s c h
      have h2' : (session_step p .AFTERNOON (bt, s) c).2.reversal_count = 2 := by
        rw [hs]
        exact h2
      rw [hpair]
      exact aloop_frozen p cs bt (session_step p .AFTERNOON (bt, s) c).2 h' h2'

theorem foldl_bt_ext (p : Params) (slot : SessionSlot) :
    ∀ (cs : List Candle) (bt : BTState) (s : SessionState),
    BTExt (fun r => r = .TP ∨ r = .REVERSAL) bt
      ((cs.foldl (session_step p slot) (bt, s)).1)
  | [], bt, s => BTExt.refl _ bt
  | c :: cs, bt, s => by
    rw [List.foldl_cons]
    exact BTExt.trans (session_step_bt_ext p slot bt s c)
      (foldl_bt_ext p slot cs (session_step p slot (bt, s) c).1
        (session_step p slot (bt, s) c).2)

theorem aloop_bt_ext (p : Params) :
    ∀ (cs : List Candle) (bt : BTState) (s : SessionState),
    BTExt (fun r => r = .TP ∨ r = .REVERSAL ∨ r = .TIME_EXIT) bt
      ((afternoon_loop p (bt, s) cs).1)
  | [], bt, s => BTExt.refl _ bt
  | c :: cs, bt, s => by
    rw [afternoon_loop]
    split_ifs with h₁ h₂
    · exact BTExt.refl _ bt
    · exact BTExt.mono
        (close_all_session_trades_ext p bt s c.close c.time .TIME_EXIT)
        (fun r h => Or.inr (Or.inr h))
    · exact BTExt.trans
        (BTExt.mono (session_step_bt_ext p .AFTERNOON bt s c)
          (fun r h => h.imp id Or.inl))
        (aloop_bt_ext p cs (session_step p .AFTERNOON (bt, s) c).1
          (session_step p .AFTERNOON (bt, s) c).2)

theorem record_session_drawdown_ext (R : ExitReason → Prop) (bt : BTState)
    (s : SessionState) (slot : SessionSlot) :
    BTExt R bt (record_session_drawdown bt s slot) := by
  unfold record_session_drawdown
  split_ifs with h₁ <;> cases slot <;>
    exact ⟨[], [], by simp, by simp, by simp [profitSum], by simp⟩

theorem set_morning_ext (R : ExitReason → Prop) (bt : BTState)
    (m : SessionState) : BTExt R bt { bt with morning := m } :=
  ⟨[], [], by simp, by simp, by simp [profitSum], by simp⟩

theorem set_afternoon_ext (R : ExitReason → Prop) (bt : BTState)
    (a : SessionState) : BTExt R bt { bt with afternoon := a } :=
  ⟨[], [], by simp, by simp, by simp [profitSum], by simp⟩

theorem process_morning_session_ext (p : Params) (bt : BTState)
    (dfDay : List Candle) (d : Nat) :
    BTExt (fun r => r = .TP ∨ r = .REVERSAL) bt
      (process_morning_session p bt dfDay d) := by
  simp only [process_morning_session]
  split_ifs with h₁
  · exact set_morning_ext _ bt _
  · exact BTExt.trans (foldl_bt_ext p .MORNING _ bt _)
      (BTExt.trans (set_morning_ext _ _ _)
        (record_session_drawdown_ext _ _ _ _))

theorem process_afternoon_session_ext (p : Params) (bt : BTState)
    (dfDay : List Candle) (d : Nat) :
    BTExt (fun r => r = .TP ∨ r = .REVERSAL ∨ r = .TIME_EXIT ∨
        r = .SESSION_END) bt
      (process_afternoon_session p bt dfDay d) := by
  have hloop := BTExt.mono (aloop_bt_ext p
    (List.filter (fun c => decide (AFTERNOON_ENTRY_START ≤ c.timeOnly))
      dfDay) bt
    (range_setup dfDay d AFTERNOON_RANGE_START AFTERNOON_RANGE_END
      (session_init bt bt.afternoon)))
    (fun r h => (h.imp id (fun h' => h'.imp id Or.inl) :
      r = ExitReason.TP ∨ r = ExitReason.REVERSAL ∨ r = ExitReason.TIME_EXIT ∨
        r = ExitReason.SESSION_END))
  simp only [process_afternoon_session]
  split_ifs with h₁ h₂
  · exact set_afternoon_ext _ bt _
  · exact BTExt.trans hloop (BTExt.trans (set_afternoon_ext _ _ _)
      (record_session_drawdown_ext _ _ _ _))
  · rcases hlast : (List.filter
      (fun c => decide (AFTERNOON_ENTRY_START ≤ c.timeOnly))
        dfDay).getLast? with _ | lc
    · simp only [hlast]
      exact BTExt.trans hloop (BTExt.trans (set_afternoon_ext _ _ _)
        (record_session_drawdown_ext _ _ _ _))
    · simp only [hlast]
      exact BTExt.trans hloop (BTExt.trans (BTExt.mono
        (close_all_session_trades_ext p _ _ lc.close lc.time .SESSION_END)
        (fun r h => Or.inr (Or.inr (Or.inr h))))
        (BTExt.trans (set_afternoon_ext _ _ _)
          (record_session_drawdown_ext _ _ _ _)))

theorem process_day_ext (p : Params) (df : List Candle) (bt : BTState)
    (d : Nat) : BTExt (fun _ => True) bt (process_day p df bt d) := by
  simp only [process_day]
  split_ifs with h₁ h₂
  · exact BTExt.refl _ bt
  · exact ⟨[], [], by simp, by simp, by simp [profitSum], by simp⟩
  · have h0 : BTExt (fun _ => True) bt
        { bt with morning := bt.morning.reset,
                  afternoon := bt.afternoon.reset } :=
      ⟨[], [], by simp, by simp, by simp [profitSum], by simp⟩
    refine BTExt.trans h0 ?_
    refine BTExt.trans (BTExt.mono (process_morning_session_ext p
      { bt with morning := bt.morning.reset,
                afternoon := bt.afternoon.reset }
      (List.filter (fun c => decide (c.date = d)) df) d)
      (fun r _ => trivial)) ?_
    refine BTExt.trans (BTExt.mono (process_afternoon_session_ext p
      (process_morning_session p
        { bt with morning := bt.morning.reset,
                  afternoon := bt.afternoon.reset }
        (List.filter (fun c => decide (c.date = d)) df) d)
      (List.filter (fun c => decide (c.date = d)) df) d)
      (fun r _ => trivial)) ?_
    exact ⟨[], [], by simp, by simp, by simp [profitSum], by simp⟩

theorem dates_fold_ext (p : Params) (df : List Candle) :
    ∀ (dates : List Nat) (bt : BTState),
    BTExt (fun _ => True) bt (dates.foldl (process_day p df) bt)
  | [], bt => BTExt.refl _ bt
  | d :: dates, bt => by
    rw [List.foldl_cons]
    exact BTExt.trans (process_day_ext p df bt d)
      (dates_fold_ext p df dates (process_day p df bt d))

theorem runBacktest_ext (p : Params) (df : List Candle) :
    BTExt (fun _ => True) initial_state (runBacktest p df) :=
  dates_fold_ext p df (uniqueDates df) initial_state

theorem tp_phase_no_open (p : Params) (bt : BTState) (s : SessionState)
    (c : Candle) (h : s.open_trades = []) : tp_phase p bt s c = (bt, s) := by
  simp [tp_phase, h]

theorem drawdown_phase_no_open (p : Params) (bt : BTState) (s : SessionState)
    (c : Candle) (h : s.open_trades = []) : drawdown_phase p bt s c = s := by
  simp [drawdown_phase, h]

theorem scale_phase_blocked (p : Params) (bt : BTState) (s : SessionState)
    (c : Candle) (d : Direction) (slot : SessionSlot) (co : Bool) (t₁ : Nat)
    (h₁ : s.breakout_candle_time = some t₁) (h₂ : ¬ t₁ < c.time) :
    scale_phase p bt s c d slot co = (bt, s) := by
  simp [scale_phase, h₁, h₂]

theorem tp_phase_all_trades (p : Params) (bt : BTState) (s : SessionState)
    (c : Candle) : (tp_phase p bt s c).1.all_trades = bt.all_trades := by
  simp only [tp_phase]
  split_ifs with h₁ h₂
  · rfl
  · rfl
  · rw [closes_foldl, close_all_session_trades_spec]

theorem reversal_phase_all_trades (p : Params) (bt : BTState)
    (s : SessionState) (c : Candle) (nd : Direction) (co : Bool) :
    (reversal_phase p bt s c nd co).1.all_trades = bt.all_trades := by
  simp only [reversal_phase, close_all_session_trades_spec]
  split_ifs <;> rfl

theorem step_all_trades_blocked (p : Params) (slot : SessionSlot)
    (bt : BTState) (s : SessionState) (c : Candle) (t₁ : Nat)
    (hb : (breakout_phase p (can_breakout slot c) s c).breakout_candle_time =
      some t₁)
    (hlt : ¬ t₁ < c.time) :
    (session_step p slot (bt, s) c).1.all_trades = bt.all_trades := by
  unfold session_step
  rcases hdir : (breakout_phase p (can_breakout slot c) s c).breakout_direction
    with _ | d
  · simp only [hdir]
  · simp only [hdir]
    obtain ⟨ot, htp⟩ := tp_phase_sess p bt
      (breakout_phase p (can_breakout slot c) s c) c
    have hbct : (tp_phase p bt
        (breakout_phase p (can_breakout slot c) s c) c).2.breakout_candle_time
        = some t₁ := by
      rw [htp]
      exact hb
    rw [scale_phase_blocked p _ _ c d slot (can_open_new slot c) t₁ hbct hlt]
    rcases hsig : reversal_signal d (tp_phase p bt
        (breakout_phase p (can_breakout slot c) s c) c).2 c with _ | nd
    · simp only []
      exact tp_phase_all_trades p bt _ c
    · simp only []
      rw [reversal_phase_all_trades]
      exact tp_phase_all_trades p bt _ c

/-- C1: over a whole run the final balance equals the initial balance plus
the sum of the closed trades' realized profits; and the per-candle step
preserves any offset between the balance and the sum of closed profits,
i.e. the balance moves only when trades are closed. -/
theorem balance_conservation :
    (∀ (p : Params) (df : List Candle),
      (runBacktest p df).balance =
        INITIAL_BALANCE + profitSum (runBacktest p df).closed_trades) ∧
    (∀ (p : Params) (slot : SessionSlot) (bt : BTState) (s : SessionState)
        (c : Candle) (b₀ : ℚ),
      bt.balance = b₀ + profitSum bt.closed_trades →
      (session_step p slot (bt, s) c).1.balance =
        b₀ + profitSum (session_step p slot (bt, s) c).1.closed_trades) := by
  constructor
  · intro p df
    obtain ⟨ts, cts, ha, hc, hb, _⟩ := runBacktest_ext p df
    rw [hb, hc]
    simp [initial_state, profitSum_append, INITIAL_BALANCE, profitSum]
  · intro p slot bt s c b₀ h
    obtain ⟨ts, cts, ha, hc, hb, _⟩ := session_step_bt_ext p slot bt s c
    rw [hb, hc, h, profitSum_append]
    ring

/-- Witness for C1 at a concrete state and candle. -/
theorem balance_conservation_witness :
    (session_step scenarioParams .MORNING (scenarioOpenBT, scenarioOpenSession)
        scenarioCCandle).1.balance =
      10000 + profitSum (session_step scenarioParams .MORNING
        (scenarioOpenBT, scenarioOpenSession) scenarioCCandle).1.closed_trades :=
  balance_conservation.2 scenarioParams .MORNING scenarioOpenBT
    scenarioOpenSession scenarioCCandle 10000
    (by norm_num [scenarioOpenBT, profitSum])

/-- C2: from any session state satisfying the step invariant, the reversal
counter stays at most 2 after any number of morning-session or
afternoon-session candles; and once the counter is 2 no further trade is
ever opened for that session (the engine's trade list is unchanged by the
rest of the day's candles). -/
theorem reversal_count_bounded :
    ∀ (p : Params) (bt : BTState) (s : SessionState) (cs : List Candle)
      (n : Nat), SInv s →
    ((cs.take n).foldl (session_step p .MORNING) (bt, s)).2.reversal_count ≤ 2
      ∧ (afternoon_loop p (bt, s) (cs.take n)).2.reversal_count ≤ 2
      ∧ (s.reversal_count = 2 →
          (cs.foldl (session_step p .MORNING) (bt, s)).1.all_trades =
            bt.all_trades ∧
          (afternoon_loop p (bt, s) cs).1.all_trades = bt.all_trades) := by
  intro p bt s cs n h
  exact ⟨(foldl_sinv p .MORNING (cs.take n) bt s h).1,
         (aloop_sinv p (cs.take n) bt s h).1,
         fun h2 => ⟨by rw [foldl_frozen p .MORNING cs bt s h h2],
                    aloop_frozen p cs bt s h h2⟩⟩

/-- Witness for C2 at a concrete armed session and candle. -/
theorem reversal_count_bounded_witness :
    ((([scenarioBCandle].take 1).foldl
        (session_step scenarioParams .MORNING)
        (scenarioArmedBT, scenarioArmed)).2.reversal_count ≤ 2
      ∧ (afternoon_loop scenarioParams (scenarioArmedBT, scenarioArmed)
          ([scenarioBCandle].take 1)).2.reversal_count ≤ 2
      ∧ (scenarioArmed.reversal_count = 2 →
          ([scenarioBCandle].foldl (session_step scenarioParams .MORNING)
            (scenarioArmedBT, scenarioArmed)).1.all_trades =
              scenarioArmedBT.all_trades ∧
          (afternoon_loop scenarioParams (scenarioArmedBT, scenarioArmed)
            [scenarioBCandle]).1.all_trades = scenarioArmedBT.all_trades)) :=
  reversal_count_bounded scenarioParams scenarioArmedBT scenarioArmed
    [scenarioBCandle] 1
    (by refine ⟨?_, fun _ => ⟨?_, ?_⟩, fun _ => ?_⟩ <;>
      norm_num [scenarioArmed])

/-- C3: arming the initial breakout opens no position on the breakout
candle itself (the engine state's trade list is untouched, the session
merely becomes armed with the breakout candle's timestamp recorded); and
any candle whose timestamp is not strictly after the recorded breakout
candle timestamp opens no trade at all. -/
theorem no_entry_on_breakout_candle :
    ∀ (p : Params) (bt : BTState) (s : SessionState) (c : Candle)
      (hi lo : ℚ),
    (s.initial_breakout_done = false →
     s.range_high = some hi → s.range_low = some lo → lo ≤ hi →
     s.open_trades = [] → c.timeOnly ≤ MORNING_ENTRY_CUTOFF →
     (hi < c.close ∨ c.close < lo) →
     (session_step p .MORNING (bt, s) c).1 = bt ∧
       (session_step p .MORNING (bt, s) c).2.open_trades = [] ∧
       (session_step p .MORNING (bt, s) c).2.initial_breakout_done = true ∧
       (session_step p .MORNING (bt, s) c).2.breakout_candle_time =
         some c.time ∧
       (session_step p .MORNING (bt, s) c).2.breakout_direction.isSome =
         true) ∧
    (∀ t₀, s.breakout_candle_time = some t₀ → c.time ≤ t₀ →
      (session_step p .MORNING (bt, s) c).1.all_trades = bt.all_trades) := by
  intro p bt s c hi lo
  constructor
  · intro hdone hhi hlo hle hopen hcut hbreak
    have hcb : can_breakout .MORNING c = true := by
      simp [can_breakout, hcut]
    have harm : ∃ d, breakout_phase p (can_breakout .MORNING c) s c =
        arm_breakout p s c d ∧
        reversal_signal d (arm_breakout p s c d) c = none := by
      rcases hbreak with hB | hS
      · refine ⟨.BUY, ?_, ?_⟩
        · simp [breakout_phase, hdone, hcb, hhi, hlo, hB]
        · have hnlt : ¬ c.close < lo := not_lt.mpr (hle.trans hB.le)
          simp [reversal_signal, arm_breakout, hlo, hnlt]
      · refine ⟨.SELL, ?_, ?_⟩
        · have hnlt : ¬ hi < c.close := not_lt.mpr (hS.le.trans hle)
          simp [breakout_phase, hdone, hcb, hhi, hlo, hS, hnlt]
        · have hnlt : ¬ hi < c.close := not_lt.mpr (hS.le.trans hle)
          simp [reversal_signal, arm_breakout, hhi, hnlt]
    obtain ⟨d, harm, hsig⟩ := harm
    have hopen' : (arm_breakout p s c d).open_trades = [] := hopen
    simp only [session_step]
    rw [harm]
    have hdir : (arm_breakout p s c d).breakout_direction = some d := rfl
    simp only [hdir, tp_phase_no_open p bt (arm_breakout p s c d) c hopen',
      scale_phase_blocked p bt (arm_breakout p s c d) c d .MORNING
        (can_open_new .MORNING c) c.time rfl (lt_irrefl c.time), hsig,
      drawdown_phase_no_open p bt (arm_breakout p s c d) c hopen']
    exact ⟨by trivial, hopen', by rfl, by rfl, by rfl⟩
  · intro t₀ hbct hle
    rcases breakout_phase_cases p (can_breakout .MORNING c) s c with
      he | ⟨_, d0, he⟩
    · exact step_all_trades_blocked p .MORNING bt s c t₀
        (by rw [he]; exact hbct) (by omega)
    · exact step_all_trades_blocked p .MORNING bt s c c.time
        (by rw [he]; rfl) (lt_irrefl c.time)

/-- Witness for C3: the Scenario A breakout candle arms the session and
opens nothing; a candle at the recorded breakout timestamp opens nothing. -/
theorem no_entry_on_breakout_candle_witness :
    ((session_step scenarioParams .MORNING (initial_state, preArmedSession)
        breakoutCandle).1 = initial_state ∧
      (session_step scenarioParams .MORNING (initial_state, preArmedSession)
        breakoutCandle).2.open_trades = [] ∧
      (session_step scenarioParams .MORNING (initial_state, preArmedSession)
        breakoutCandle).2.initial_breakout_done = true ∧
      (session_step scenarioParams .MORNING (initial_state, preArmedSession)
        breakoutCandle).2.breakout_candle_time = some breakoutCandle.time ∧
      (session_step scenarioParams .MORNING (initial_state, preArmedSession)
        breakoutCandle).2.breakout_direction.isSome = true) ∧
    (session_step scenarioParams .MORNING (scenarioArmedBT, scenarioArmed)
      sameTimeCandle).1.all_trades = scenarioArmedBT.all_trades :=
  ⟨(no_entry_on_breakout_candle scenarioParams initial_state preArmedSession
      breakoutCandle 1.105 1.1).1 rfl rfl rfl (by norm_num) rfl
      (by norm_num [Candle.timeOnly, breakoutCandle, MORNING_ENTRY_CUTOFF])
      (Or.inl (by norm_num [breakoutCandle])),
   (no_entry_on_breakout_candle scenarioParams scenarioArmedBT scenarioArmed
      sameTimeCandle 1.105 1.1).2 615 rfl
      (by norm_num [Candle.time, sameTimeCandle])⟩

/-- Counterexample to C4: in the armed Scenario A session, the Scenario B
candle (low 1.10100) lies at or below all three scale levels, so the
engine consumes all of 1.10125, 1.10250 and 1.10375 on that one candle —
not the 1.10125 level only. -/
theorem scenarioB_single_level_counterexample :
    (session_step scenarioParams .MORNING (scenarioArmedBT, scenarioArmed)
        scenarioBCandle).2.executed_scales = [1.10125, 1.1025, 1.10375] ∧
    (1.1025 : ℚ) ∈ (session_step scenarioParams .MORNING
        (scenarioArmedBT, scenarioArmed) scenarioBCandle).2.executed_scales ∧
    (1.10375 : ℚ) ∈ (session_step scenarioParams .MORNING
        (scenarioArmedBT, scenarioArmed) scenarioBCandle).2.executed_scales ∧
    ¬ (session_step scenarioParams .MORNING (scenarioArmedBT, scenarioArmed)
        scenarioBCandle).2.executed_scales = [1.10125] := by
  norm_num [session_step, can_breakout, can_open_new, breakout_phase,
    arm_breakout, tp_phase, check_tp_hit, close_all_session_trades,
    close_trade, Trade.close, scale_phase, scale_loop, scale_entry,
    scale_triggered, open_trade, reversal_signal, reversal_phase,
    drawdown_phase, update_session_drawdown, drawdown_sample,
    calculate_floating_pnl, calculate_tp, calculate_scale_levels,
    SCALE_LEVELS, TP_UNITS, MORNING_ENTRY_CUTOFF, AFTERNOON_EXIT_TIME,
    Candle.timeOnly, Candle.date, scenarioParams, scenarioArmed,
    scenarioArmedBT, scenarioBCandle]
  simp

/-- C4 as amended: the Scenario B candle, processed in the armed Scenario
A session, triggers all three scale levels — each level with the candle's
low at or below it — consuming the whole ladder and opening a SCALE trade
at each level price. -/
theorem scenarioB_triggers_whole_ladder :
    (session_step scenarioParams .MORNING (scenarioArmedBT, scenarioArmed)
        scenarioBCandle).2.executed_scales = [1.10125, 1.1025, 1.10375] ∧
    (session_step scenarioParams .MORNING (scenarioArmedBT, scenarioArmed)
        scenarioBCandle).2.open_trades.map Trade.entry_price =
      [1.10125, 1.1025, 1.10375] ∧
    (session_step scenarioParams .MORNING (scenarioArmedBT, scenarioArmed)
        scenarioBCandle).2.open_trades.map Trade.trade_type =
      [.SCALE, .SCALE, .SCALE] ∧
    (session_step scenarioParams .MORNING (scenarioArmedBT, scenarioArmed)
        scenarioBCandle).1.all_trades.map Trade.entry_price =
      [1.10125, 1.1025, 1.10375] := by
  norm_num [session_step, can_breakout, can_open_new, breakout_phase,
    arm_breakout, tp_phase, check_tp_hit, close_all_session_trades,
    close_trade, Trade.close, scale_phase, scale_loop, scale_entry,
    scale_triggered, open_trade, reversal_signal, reversal_phase,
    drawdown_phase, update_session_drawdown, drawdown_sample,
    calculate_floating_pnl, calculate_tp, calculate_scale_levels,
    SCALE_LEVELS, TP_UNITS, MORNING_ENTRY_CUTOFF, AFTERNOON_EXIT_TIME,
    Candle.timeOnly, Candle.date, scenarioParams, scenarioArmed,
    scenarioArmedBT, scenarioBCandle]

theorem scale_loop_opens_mem (p : Params) (d : Direction) (rc : Nat)
    (tp : ℚ) (slot : SessionSlot) (co : Bool) (c : Candle) :
    ∀ (ls : List ℚ) (i : Nat) (acc : ScaleAcc) (t : Trade),
    t ∈ (scale_loop p d rc tp slot co c i ls acc).opens →
    t ∈ acc.opens ∨
      (t.trade_type = .SCALE ∧ t.session = slot ∧ t.entry_time = c.time ∧
        ∃ j, ls.get? j = some t.entry_price ∧
          t.lot_size = (if 1 ≤ rc then p.lot_size * 4
            else p.lot_size * ((4 : ℚ) - ((i + j : Nat) : ℚ))))
  | [], i, acc, t, h => Or.inl h
  | l :: rest, i, acc, t, h => by
    rw [scale_loop] at h
    rcases scale_loop_opens_mem p d rc tp slot co c rest (i + 1)
      (scale_entry p d rc tp slot co c i l acc) t h with h' | ⟨h1, h2, h3, j, hj, hl⟩
    · unfold scale_entry at h'
      split_ifs at h' with ha hb hc hd
      · exact Or.inl h'
      · exact Or.inl h'
      · rcases List.mem_append.mp h' with h'' | h''
        · exact Or.inl h''
        · have ht := List.mem_singleton.mp h''
          subst ht
          exact Or.inr ⟨rfl, rfl, rfl, 0, rfl, by rw [if_pos hd]; simp [open_trade]⟩
      · rcases List.mem_append.mp h' with h'' | h''
        · exact Or.inl h''
        · have ht := List.mem_singleton.mp h''
          subst ht
          exact Or.inr ⟨rfl, rfl, rfl, 0, rfl, by rw [if_neg hd]; simp [open_trade]⟩
      · exact Or.inl h'
    · refine Or.inr ⟨h1, h2, h3, j + 1, by simpa using hj, ?_⟩
      rw [hl]
      have he : (i + 1 + j : Nat) = (i + (j + 1) : Nat) := by omega
      rw [he]

/-- Counterexample to C5: in the Scenario B sweep, the trade opened at the
25%-retracement level 1.10375 gets lot 0.02 (the smallest multiplier, 2x)
while the 75%-retracement level 1.10125 — which is the deeper pullback,
1.10125 < 1.10375 — gets lot 0.04 (the largest multiplier, 4x).  The
claim's identification (25% deepest and largest, 75% shallowest and
smallest) is the wrong way round. -/
theorem scale_multiplier_schedule_counterexample :
    (session_step scenarioParams .MORNING (scenarioArmedBT, scenarioArmed)
        scenarioBCandle).1.all_trades.map
        (fun t => (t.entry_price, t.lot_size)) =
      [(1.10125, 0.04), (1.1025, 0.03), (1.10375, 0.02)] ∧
    (1.10125 : ℚ) < 1.10375 ∧ ((0.02 : ℚ) < 0.04) := by
  norm_num [session_step, can_breakout, can_open_new, breakout_phase,
    arm_breakout, tp_phase, check_tp_hit, close_all_session_trades,
    close_trade, Trade.close, scale_phase, scale_loop, scale_entry,
    scale_triggered, open_trade, reversal_signal, reversal_phase,
    drawdown_phase, update_session_drawdown, drawdown_sample,
    calculate_floating_pnl, calculate_tp, calculate_scale_levels,
    SCALE_LEVELS, TP_UNITS, MORNING_ENTRY_CUTOFF, AFTERNOON_EXIT_TIME,
    Candle.timeOnly, Candle.date, scenarioParams, scenarioArmed,
    scenarioArmedBT, scenarioBCandle]

/-- C5 as amended: every SCALE trade opened by the ladder loop carries the
fixed multiplier schedule — with one or more reversals the fixed 4x lot,
and on the initial (pre-reversal) ladder the `(4 - index)`x lot for the
ladder index of its entry level, so the first-listed level (the 75%
retracement, which is the deepest pullback: lowest price for LONG, highest
for SHORT) gets the largest multiplier 4x and the 25% retracement (the
shallowest) the smallest, 2x; a reversal ladder trade always gets 4x. -/
theorem scale_multiplier_schedule :
    (∀ (p : Params) (bt : BTState) (s : SessionState) (c : Candle)
        (d : Direction) (slot : SessionSlot) (co : Bool) (t : Trade),
      t ∈ (scale_phase p bt s c d slot co).2.open_trades →
      t ∉ s.open_trades →
      t.trade_type = .SCALE ∧
        (1 ≤ s.reversal_count → t.lot_size = p.lot_size * 4) ∧
        (s.reversal_count = 0 →
          ∃ j, s.scale_levels.get? j = some t.entry_price ∧
            t.lot_size = p.lot_size * ((4 : ℚ) - (j : ℚ)))) ∧
    (∀ hi lo : ℚ, lo < hi →
      calculate_scale_levels hi lo .BUY false =
        [hi - 3/4 * (hi - lo), hi - 1/2 * (hi - lo), hi - 1/4 * (hi - lo)] ∧
      hi - 3/4 * (hi - lo) < hi - 1/2 * (hi - lo) ∧
      hi - 1/2 * (hi - lo) < hi - 1/4 * (hi - lo)) ∧
    (∀ hi lo : ℚ, lo < hi →
      calculate_scale_levels hi lo .SELL false =
        [lo + 3/4 * (hi - lo), lo + 1/2 * (hi - lo), lo + 1/4 * (hi - lo)] ∧
      lo + 1/4 * (hi - lo) < lo + 1/2 * (hi - lo) ∧
      lo + 1/2 * (hi - lo) < lo + 3/4 * (hi - lo)) := by
  refine ⟨?_, ?_, ?_⟩
  · intro p bt s c d slot co t hmem hnot
    have hph := scale_phase_sess p bt s c d slot co
    revert hmem
    simp only [scale_phase]
    split_ifs with h₁
    · intro hmem
      rcases scale_loop_opens_mem p d s.reversal_count (s.tp_price.getD 0)
        slot co c s.scale_levels 0
        { bt := bt, executed := s.executed_scales, opens := s.open_trades }
        t hmem with h' | ⟨ht, _, _, j, hj, hl⟩
      · exact absurd h' hnot
      · refine ⟨ht, ?_, ?_⟩
        · intro hrc
          rw [hl, if_pos hrc]
        · intro hrc0
          refine ⟨j, hj, ?_⟩
          rw [hl, if_neg (by omega)]
          norm_num
    · intro hmem
      exact absurd hmem hnot
  · intro hi lo h
    refine ⟨by norm_num [calculate_scale_levels, SCALE_LEVELS], ?_, ?_⟩ <;>
      nlinarith
  · intro hi lo h
    refine ⟨by norm_num [calculate_scale_levels, SCALE_LEVELS], ?_, ?_⟩ <;>
      nlinarith

/-- Witness for C5 (amended) at the Scenario B sweep: the trade opened at
the 75% level carries the 4x lot as the schedule assigns to ladder
index 0. -/
theorem scale_multiplier_schedule_witness :
    ({ id := 0, direction := .BUY, entry_price := 1.10125, entry_time := 620,
       lot_size := 0.04, tp_price := 1.1118, trade_type := .SCALE,
       session := .MORNING } : Trade).trade_type = .SCALE ∧
      (1 ≤ scenarioArmed.reversal_count →
        ({ id := 0, direction := .BUY, entry_price := 1.10125,
           entry_time := 620, lot_size := 0.04, tp_price := 1.1118,
           trade_type := .SCALE, session := .MORNING } : Trade).lot_size =
          scenarioParams.lot_size * 4) ∧
      (scenarioArmed.reversal_count = 0 →
        ∃ j, scenarioArmed.scale_levels.get? j = some
            ({ id := 0, direction := .BUY, entry_price := 1.10125,
               entry_time := 620, lot_size := 0.04, tp_price := 1.1118,
               trade_type := .SCALE, session := .MORNING } : Trade).entry_price
          ∧ ({ id := 0, direction := .BUY, entry_price := 1.10125,
               entry_time := 620, lot_size := 0.04, tp_price := 1.1118,
               trade_type := .SCALE, session := .MORNING } : Trade).lot_size =
            scenarioParams.lot_size * ((4 : ℚ) - (j : ℚ))) :=
  scale_multiplier_schedule.1 scenarioParams scenarioArmedBT scenarioArmed
    scenarioBCandle .BUY .MORNING true _
    (by norm_num [scale_phase, scale_loop, scale_entry, scale_triggered,
      open_trade, calculate_scale_levels, SCALE_LEVELS, scenarioParams,
      scenarioArmed, scenarioArmedBT, scenarioBCandle])
    (by norm_num [scenarioArmed])

theorem scale_loop_all_executed (p : Params) (d : Direction) (rc : Nat)
    (tp : ℚ) (slot : SessionSlot) (co : Bool) (c : Candle) :
    ∀ (ls : List ℚ) (i : Nat) (acc : ScaleAcc),
    (∀ l ∈ ls, l ∈ acc.executed) →
    scale_loop p d rc tp slot co c i ls acc = acc
  | [], i, acc, h => rfl
  | l :: rest, i, acc, h => by
    rw [scale_loop]
    have hstep : scale_entry p d rc tp slot co c i l acc = acc := by
      unfold scale_entry
      rw [if_pos (h l (List.mem_cons_self l rest))]
    rw [hstep]
    exact scale_loop_all_executed p d rc tp slot co c rest (i + 1) acc
      (fun x hx => h x (List.mem_cons_of_mem l hx))

theorem scale_phase_all_executed (p : Params) (bt : BTState)
    (s : SessionState) (c : Candle) (d : Direction) (slot : SessionSlot)
    (co : Bool) (h : ∀ l ∈ s.scale_levels, l ∈ s.executed_scales) :
    scale_phase p bt s c d slot co = (bt, s) := by
  simp only [scale_phase]
  split_ifs with h₁
  · rw [scale_loop_all_executed p d s.reversal_count (s.tp_price.getD 0)
      slot co c s.scale_levels 0
      { bt := bt, executed := s.executed_scales, opens := s.open_trades } h]
  · rfl

theorem tp_phase_no_hits (p : Params) (bt : BTState) (s : SessionState)
    (c : Candle) (h : ∀ t ∈ s.open_trades, check_tp_hit t c = false) :
    tp_phase p bt s c = (bt, s) := by
  simp only [tp_phase]
  split_ifs with h₁ h₂
  · rfl
  · rfl
  · exfalso
    apply h₂
    rw [List.isEmpty_iff, List.filter_eq_nil]
    intro t ht
    simp [h t ht]

/-- Counterexample to C6: an armed LONG session with an open trade, zero
reversals, and two still-untriggered scale levels processes the Scenario C
candle (close 1.09900 below the range low) — the candle's low sweeps the
two remaining levels, so the engine opens two SCALE trades on that very
candle (before the reversal closes everything), contradicting the claim
that no trade is opened on the reversal candle. -/
theorem reversal_candle_opens_counterexample :
    scenarioOpenSession.breakout_direction = some .BUY ∧
    scenarioOpenSession.reversal_count = 0 ∧
    scenarioOpenSession.open_trades ≠ [] ∧
    scenarioCCandle.close < 1.1 ∧
    scenarioCCandle.timeOnly ≤ MORNING_ENTRY_CUTOFF ∧
    (session_step scenarioParams .MORNING
        (scenarioOpenBT, scenarioOpenSession)
        scenarioCCandle).1.all_trades.length = 3 ∧
    ¬ (session_step scenarioParams .MORNING
        (scenarioOpenBT, scenarioOpenSession)
        scenarioCCandle).1.all_trades = scenarioOpenBT.all_trades := by
  norm_num [session_step, can_breakout, can_open_new, breakout_phase,
    arm_breakout, tp_phase, check_tp_hit, close_all_session_trades,
    close_trade, Trade.close, scale_phase, scale_loop, scale_entry,
    scale_triggered, open_trade, reversal_signal, reversal_phase,
    drawdown_phase, update_session_drawdown, drawdown_sample,
    calculate_floating_pnl, calculate_tp, calculate_scale_levels,
    SCALE_LEVELS, TP_UNITS, MORNING_ENTRY_CUTOFF, AFTERNOON_EXIT_TIME,
    Candle.timeOnly, Candle.date, scenarioParams, scenarioArmed,
    scenarioOpenSession, scenarioOpenBT, scenarioScaleTrade, scenarioCCandle]
  simp

/-- C6 as amended: under the additional provisos that the candle hits no
open trade's take profit and that every scale level is already triggered
(otherwise the TP close, respectively the ladder, acts first on the same
candle), a first reversal candle closes all open trades at its close price
with reason REVERSAL, opens nothing, sets the reversal counter to 1, flips
the direction to SHORT, re-computes the TP from the new breakout price,
replaces the ladder by the single 50% level of the new direction, and
clears the triggered set. -/
theorem first_reversal_transition :
    ∀ (p : Params) (bt : BTState) (s : SessionState) (c : Candle)
      (hi lo : ℚ),
    s.breakout_direction = some .BUY →
    s.reversal_count = 0 →
    s.range_high = some hi → s.range_low = some lo →
    s.initial_breakout_done = true →
    s.open_trades ≠ [] →
    c.timeOnly ≤ MORNING_ENTRY_CUTOFF →
    c.close < lo →
    (∀ t ∈ s.open_trades, check_tp_hit t c = false) →
    (∀ l ∈ s.scale_levels, l ∈ s.executed_scales) →
    (session_step p .MORNING (bt, s) c).1.closed_trades =
        bt.closed_trades ++ s.open_trades.map
          (fun t => t.close c.close c.time .REVERSAL p.point) ∧
      (session_step p .MORNING (bt, s) c).1.all_trades = bt.all_trades ∧
      (session_step p .MORNING (bt, s) c).2.open_trades = [] ∧
      (session_step p .MORNING (bt, s) c).2.reversal_count = 1 ∧
      (session_step p .MORNING (bt, s) c).2.breakout_direction =
        some .SELL ∧
      (session_step p .MORNING (bt, s) c).2.breakout_price = some c.close ∧
      (session_step p .MORNING (bt, s) c).2.tp_price =
        some (c.close - TP_UNITS * p.point) ∧
      (session_step p .MORNING (bt, s) c).2.scale_levels =
        [lo + 1/2 * (hi - lo)] ∧
      (session_step p .MORNING (bt, s) c).2.executed_scales = [] := by
  intro p bt s c hi lo hdir hrc hhi hlo hdone hopen hcut hclose htp hexec
  have hbp : breakout_phase p (can_breakout .MORNING c) s c = s := by
    unfold breakout_phase
    rw [if_neg]
    simp [hdone]
  have hsig : reversal_signal .BUY s c = some .SELL := by
    simp [reversal_signal, hlo, hclose]
  have hoe : ¬ s.open_trades.isEmpty = true := by
    simpa [List.isEmpty_iff] using hopen
  have hco : can_open_new .MORNING c = true := by
    simp [can_open_new, hcut]
  have hsp : ∀ co, scale_phase p bt s c .BUY .MORNING co = (bt, s) :=
    fun co => scale_phase_all_executed p bt s c .BUY .MORNING co hexec
  simp only [session_step, hbp, hdir, tp_phase_no_hits p bt s c htp, hsp,
    hsig]
  simp [reversal_phase, hoe, close_all_session_trades_spec, hco, hrc,
    calculate_tp, calculate_scale_levels, hhi, hlo, SCALE_LEVELS]

/-- Witness for C6 (amended) at the Scenario C candle with the whole
ladder already consumed. -/
theorem first_reversal_transition_witness :
    (session_step scenarioParams .MORNING
        (scenarioExhaustedBT, scenarioExhaustedSession)
        scenarioCCandle).1.closed_trades =
      scenarioExhaustedBT.closed_trades ++
        scenarioExhaustedSession.open_trades.map
          (fun t => t.close scenarioCCandle.close scenarioCCandle.time
            .REVERSAL scenarioParams.point) ∧
    (session_step scenarioParams .MORNING
        (scenarioExhaustedBT, scenarioExhaustedSession)
        scenarioCCandle).1.all_trades = scenarioExhaustedBT.all_trades ∧
    (session_step scenarioParams .MORNING
        (scenarioExhaustedBT, scenarioExhaustedSession)
        scenarioCCandle).2.open_trades = [] ∧
    (session_step scenarioParams .MORNING
        (scenarioExhaustedBT, scenarioExhaustedSession)
        scenarioCCandle).2.reversal_count = 1 ∧
    (session_step scenarioParams .MORNING
        (scenarioExhaustedBT, scenarioExhaustedSession)
        scenarioCCandle).2.breakout_direction = some .SELL ∧
    (session_step scenarioParams .MORNING
        (scenarioExhaustedBT, scenarioExhaustedSession)
        scenarioCCandle).2.breakout_price = some scenarioCCandle.close ∧
    (session_step scenarioParams .MORNING
        (scenarioExhaustedBT, scenarioExhaustedSession)
        scenarioCCandle).2.tp_price =
      some (scenarioCCandle.close - TP_UNITS * scenarioParams.point) ∧
    (session_step scenarioParams .MORNING
        (scenarioExhaustedBT, scenarioExhaustedSession)
        scenarioCCandle).2.scale_levels =
      [(1.1 : ℚ) + 1/2 * (1.105 - 1.1)] ∧
    (session_step scenarioParams .MORNING
        (scenarioExhaustedBT, scenarioExhaustedSession)
        scenarioCCandle).2.executed_scales = [] :=
  first_reversal_transition scenarioParams scenarioExhaustedBT
    scenarioExhaustedSession scenarioCCandle 1.105 1.1
    rfl rfl rfl rfl rfl
    (by simp [scenarioExhaustedSession, scenarioArmed])
    (by norm_num [Candle.timeOnly, scenarioCCandle, MORNING_ENTRY_CUTOFF])
    (by norm_num [scenarioCCandle])
    (by intro t ht
        simp only [scenarioExhaustedSession, scenarioArmed,
          List.mem_singleton] at ht
        subst ht
        norm_num [check_tp_hit, scenarioScaleTrade, scenarioCCandle])
    (by intro l hl
        simp only [scenarioExhaustedSession, scenarioArmed] at hl ⊢
        norm_num [calculate_scale_levels, SCALE_LEVELS] at hl ⊢
        tauto)

theorem foldl_max_le_self : ∀ (l : List ℚ) (a : ℚ), a ≤ l.foldl max a
  | [], a => le_refl a
  | x :: xs, a => (le_max_left a x).trans (foldl_max_le_self xs (max a x))

theorem le_foldl_max_of_mem :
    ∀ (l : List ℚ) (a x : ℚ), x ∈ l → x ≤ l.foldl max a
  | y :: ys, a, x, h => by
    rcases List.mem_cons.mp h with he | hm
    · subst he
      exact (le_max_right a x).trans (foldl_max_le_self ys (max a x))
    · exact le_foldl_max_of_mem ys (max a y) x hm

theorem foldl_max_mem :
    ∀ (l : List ℚ) (a : ℚ), l.foldl max a = a ∨ l.foldl max a ∈ l
  | [], a => Or.inl rfl
  | x :: xs, a => by
    rcases foldl_max_mem xs (max a x) with he | hm
    · rcases max_choice a x with hc | hc
      · exact Or.inl (by rw [List.foldl_cons, he, hc])
      · exact Or.inr (by rw [List.foldl_cons, he, hc]; exact
          List.mem_cons_self x xs)
    · exact Or.inr (List.mem_cons_of_mem x hm)

theorem foldl_min_le_self : ∀ (l : List ℚ) (a : ℚ), l.foldl min a ≤ a
  | [], a => le_refl a
  | x :: xs, a => (foldl_min_le_self xs (min a x)).trans (min_le_left a x)

theorem foldl_min_le_of_mem :
    ∀ (l : List ℚ) (a x : ℚ), x ∈ l → l.foldl min a ≤ x
  | y :: ys, a, x, h => by
    rcases List.mem_cons.mp h with he | hm
    · subst he
      exact (foldl_min_le_self ys (min a x)).trans (min_le_right a x)
    · exact foldl_min_le_of_mem ys (min a y) x hm

theorem foldl_min_mem :
    ∀ (l : List ℚ) (a : ℚ), l.foldl min a = a ∨ l.foldl min a ∈ l
  | [], a => Or.inl rfl
  | x :: xs, a => by
    rcases foldl_min_mem xs (min a x) with he | hm
    · rcases min_choice a x with hc | hc
      · exact Or.inl (by rw [List.foldl_cons, he, hc])
      · exact Or.inr (by rw [List.foldl_cons, he, hc]; exact
          List.mem_cons_self x xs)
    · exact Or.inr (List.mem_cons_of_mem x hm)

theorem seriesMax_mem : ∀ (l : List ℚ), l ≠ [] → seriesMax l ∈ l
  | [], h => absurd rfl h
  | x :: xs, _ => by
    rcases foldl_max_mem xs x with he | hm
    · show xs.foldl max x ∈ x :: xs
      rw [he]
      exact List.mem_cons_self x xs
    · exact List.mem_cons_of_mem x hm

theorem le_seriesMax : ∀ (l : List ℚ) (x : ℚ), x ∈ l → x ≤ seriesMax l
  | y :: ys, x, h => by
    rcases List.mem_cons.mp h with he | hm
    · subst he
      exact foldl_max_le_self ys x
    · exact le_foldl_max_of_mem ys y x hm

theorem seriesMin_mem : ∀ (l : List ℚ), l ≠ [] → seriesMin l ∈ l
  | [], h => absurd rfl h
  | x :: xs, _ => by
    rcases foldl_min_mem xs x with he | hm
    · show xs.foldl min x ∈ x :: xs
      rw [he]
      exact List.mem_cons_self x xs
    · exact List.mem_cons_of_mem x hm

theorem seriesMin_le : ∀ (l : List ℚ) (x : ℚ), x ∈ l → seriesMin l ≤ x
  | y :: ys, x, h => by
    rcases List.mem_cons.mp h with he | hm
    · subst he
      exact foldl_min_le_self ys x
    · exact foldl_min_le_of_mem ys y x hm

/-- C7: the range calculation returns `none` exactly when fewer than three
candles fall inside the window mask on the given date (and then the
session driver leaves trades, closed trades and the balance untouched —
the session is skipped); otherwise it returns the maximum of the window's
highs and the minimum of its lows. -/
theorem range_calculation_spec :
    ∀ (df : List Candle) (d t₁ t₂ : Nat) (p : Params) (bt : BTState),
    (calculate_range df d t₁ t₂ = none ↔
      (df.filter (rangeMask d t₁ t₂)).length < 3) ∧
    (∀ hi lo, calculate_range df d t₁ t₂ = some (hi, lo) →
      (hi ∈ (df.filter (rangeMask d t₁ t₂)).map Candle.high ∧
        ∀ c ∈ df.filter (rangeMask d t₁ t₂), c.high ≤ hi) ∧
      (lo ∈ (df.filter (rangeMask d t₁ t₂)).map Candle.low ∧
        ∀ c ∈ df.filter (rangeMask d t₁ t₂), lo ≤ c.low)) ∧
    (bt.morning.range_high = none →
      calculate_range df d MORNING_RANGE_START MORNING_RANGE_END = none →
      (process_morning_session p bt df d).all_trades = bt.all_trades ∧
      (process_morning_session p bt df d).closed_trades = bt.closed_trades ∧
      (process_morning_session p bt df d).balance = bt.balance) ∧
    (bt.afternoon.range_high = none →
      calculate_range df d AFTERNOON_RANGE_START AFTERNOON_RANGE_END =
        none →
      (process_afternoon_session p bt df d).all_trades = bt.all_trades ∧
      (process_afternoon_session p bt df d).closed_trades =
        bt.closed_trades ∧
      (process_afternoon_session p bt df d).balance = bt.balance) := by
  intro df d t₁ t₂ p bt
  refine ⟨?_, ?_, ?_, ?_⟩
  · simp only [calculate_range]
    split_ifs with h₁
    · simpa using h₁
    · simpa using h₁
  · intro hi lo h
    simp only [calculate_range] at h
    split_ifs at h with h₁
    have hne : df.filter (rangeMask d t₁ t₂) ≠ [] := by
      intro hemp
      rw [hemp] at h₁
      simp at h₁
    simp only [Option.some.injEq, Prod.mk.injEq] at h
    obtain ⟨hhi, hlo⟩ := h
    subst hhi
    subst hlo
    refine ⟨⟨?_, ?_⟩, ?_, ?_⟩
    · exact seriesMax_mem _ (by simpa using hne)
    · intro c hc
      exact le_seriesMax _ _ (List.mem_map_of_mem _ hc)
    · exact seriesMin_mem _ (by simpa using hne)
    · intro c hc
      exact seriesMin_le _ _ (List.mem_map_of_mem _ hc)
  · intro h₁ h₂
    have hs : (session_init bt bt.morning).range_high = none := h₁
    have hrs : range_setup df d MORNING_RANGE_START MORNING_RANGE_END
        (session_init bt bt.morning) = session_init bt bt.morning := by
      simp [range_setup, hs, h₂]
    simp only [process_morning_session, hrs]
    rw [if_pos hs]
    exact ⟨rfl, rfl, rfl⟩
  · intro h₁ h₂
    have hs : (session_init bt bt.afternoon).range_high = none := h₁
    have hrs : range_setup df d AFTERNOON_RANGE_START AFTERNOON_RANGE_END
        (session_init bt bt.afternoon) = session_init bt bt.afternoon := by
      simp [range_setup, hs, h₂]
    simp only [process_afternoon_session, hrs]
    rw [if_pos hs]
    exact ⟨rfl, rfl, rfl⟩

/-- Witness for C7: an empty candle feed has no range, and the morning
session driver is a no-op on trades, closed trades and balance. -/
theorem range_calculation_spec_witness :
    (calculate_range [] 0 MORNING_RANGE_START MORNING_RANGE_END = none ↔
      (([] : List Candle).filter
        (rangeMask 0 MORNING_RANGE_START MORNING_RANGE_END)).length < 3) ∧
    ((process_morning_session scenarioParams initial_state [] 0).all_trades =
        initial_state.all_trades ∧
      (process_morning_session scenarioParams initial_state []
        0).closed_trades = initial_state.closed_trades ∧
      (process_morning_session scenarioParams initial_state [] 0).balance =
        initial_state.balance) ∧
    ((process_afternoon_session scenarioParams initial_state []
        0).all_trades = initial_state.all_trades ∧
      (process_afternoon_session scenarioParams initial_state []
        0).closed_trades = initial_state.closed_trades ∧
      (process_afternoon_session scenarioParams initial_state [] 0).balance =
        initial_state.balance) :=
  ⟨(range_calculation_spec [] 0 MORNING_RANGE_START MORNING_RANGE_END
      scenarioParams initial_state).1,
   (range_calculation_spec [] 0 MORNING_RANGE_START MORNING_RANGE_END
      scenarioParams initial_state).2.2.1 rfl rfl,
   (range_calculation_spec [] 0 MORNING_RANGE_START MORNING_RANGE_END
      scenarioParams initial_state).2.2.2 rfl rfl⟩

theorem live_scaling_foldl_spec
    (placeOrder : Direction → ℚ → ℚ → ℚ → Option Nat) (lot tp ch cl : ℚ)
    (d : Direction) :
    ∀ (ls : List ℚ) (rem : List ℚ) (pos : List Nat),
    ls.foldl
      (fun acc level =>
        if live_triggered d ch cl level then
          match placeOrder d lot tp level with
          | some ticket => (acc.1, acc.2 ++ [ticket])
          | none => acc
        else (acc.1 ++ [level], acc.2)) (rem, pos) =
      (rem ++ ls.filter (fun l => !live_triggered d ch cl l),
       pos ++ (ls.filter (fun l => live_triggered d ch cl l)).filterMap
         (fun l => placeOrder d lot tp l))
  | [], rem, pos => by simp
  | l :: ls, rem, pos => by
    rw [List.foldl_cons]
    by_cases ht : live_triggered d ch cl l
    · rcases hp : placeOrder d lot tp l with _ | ticket
      · rw [if_pos ht]
        simp only [hp]
        rw [live_scaling_foldl_spec placeOrder lot tp ch cl d ls rem pos]
        simp [List.filter_cons, ht, hp]
      · rw [if_pos ht]
        simp only [hp]
        rw [live_scaling_foldl_spec placeOrder lot tp ch cl d ls rem
          (pos ++ [ticket])]
        simp [List.filter_cons, ht, hp]
    · rw [if_neg ht]
      rw [live_scaling_foldl_spec placeOrder lot tp ch cl d ls
        (rem ++ [l]) pos]
      simp [List.filter_cons, ht]

/-- C8: in the live scale-in routine, a triggered level never appears in
the returned remaining levels — it is consumed whether or not the order
collaborator produced a ticket — and when the collaborator fails on every
triggered level the position list comes back unchanged (no trade
recorded). -/
theorem live_order_failure_consumes_level :
    ∀ (placeOrder : Direction → ℚ → ℚ → ℚ → Option Nat)
      (lot_base ch cl tp : ℚ) (d : Direction) (ls : List ℚ) (rc : Nat)
      (pos : List Nat),
    (∀ l ∈ ls, live_triggered d ch cl l = true →
      l ∉ (live_check_and_execute_scaling placeOrder lot_base ch cl tp d ls
        rc pos).1) ∧
    ((∀ l ∈ ls, live_triggered d ch cl l = true →
        placeOrder d (if 1 ≤ rc then lot_base * 2 else lot_base) tp l =
          none) →
      (live_check_and_execute_scaling placeOrder lot_base ch cl tp d ls rc
        pos).2 = pos) := by
  intro placeOrder lot_base ch cl tp d ls rc pos
  rcases hls : ls with _ | ⟨l₀, ls'⟩
  · constructor
    · intro l hl
      simp at hl
    · intro _
      rfl
  · rw [← hls]
    have hne : ¬ ls.isEmpty = true := by
      rw [hls]
      simp
    constructor
    · intro l hl ht
      simp only [live_check_and_execute_scaling, hne, if_neg,
        Bool.false_eq_true, not_false_eq_true,
        live_scaling_foldl_spec placeOrder _ tp ch cl d ls [] pos]
      simp only [List.nil_append]
      intro hmem
      have := List.of_mem_filter hmem
      rw [ht] at this
      simp at this
    · intro hfail
      simp only [live_check_and_execute_scaling, hne, if_neg,
        Bool.false_eq_true, not_false_eq_true,
        live_scaling_foldl_spec placeOrder _ tp ch cl d ls [] pos]
      rw [List.filterMap_eq_nil.mpr, List.append_nil]
      intro l hl
      have hmem := List.mem_of_mem_filter hl
      have ht := List.of_mem_filter hl
      exact hfail l hmem ht

/-- Witness for C8: one triggered level, failing collaborator — the level
is consumed and no position is recorded. -/
theorem live_order_failure_consumes_level_witness :
    (∀ l ∈ [(1.10125 : ℚ)],
      live_triggered .BUY 1.1045 1.101 l = true →
      l ∉ (live_check_and_execute_scaling (fun _ _ _ _ => none) 0.01 1.1045
        1.101 1.1118 .BUY [(1.10125 : ℚ)] 0 [7]).1) ∧
    ((∀ l ∈ [(1.10125 : ℚ)],
        live_triggered .BUY 1.1045 1.101 l = true →
        (fun (_ : Direction) (_ _ _ : ℚ) => (none : Option Nat)) .BUY
          (if 1 ≤ 0 then (0.01 : ℚ) * 2 else 0.01) 1.1118 l = none) →
      (live_check_and_execute_scaling (fun _ _ _ _ => none) 0.01 1.1045
        1.101 1.1118 .BUY [(1.10125 : ℚ)] 0 [7]).2 = [7]) :=
  live_order_failure_consumes_level (fun _ _ _ _ => none) 0.01 1.1045 1.101
    1.1118 .BUY [(1.10125 : ℚ)] 0 [7]

/-- C9: the backtest engine is a pure function of its candle feed — two
runs over equal feeds with equal parameters produce equal trade records
and equal final balances. -/
theorem backtest_deterministic :
    ∀ (p : Params) (df₁ df₂ : List Candle), df₁ = df₂ →
    (runBacktest p df₁).all_trades = (runBacktest p df₂).all_trades ∧
    (runBacktest p df₁).closed_trades = (runBacktest p df₂).closed_trades ∧
    (runBacktest p df₁).balance = (runBacktest p df₂).balance ∧
    runBacktest p df₁ = runBacktest p df₂ := by
  intro p df₁ df₂ h
  subst h
  exact ⟨rfl, rfl, rfl, rfl⟩

/-- Witness for C9 on a concrete feed. -/
theorem backtest_deterministic_witness :
    (runBacktest scenarioParams morningLeftoverDay).all_trades =
      (runBacktest scenarioParams morningLeftoverDay).all_trades ∧
    (runBacktest scenarioParams morningLeftoverDay).closed_trades =
      (runBacktest scenarioParams morningLeftoverDay).closed_trades ∧
    (runBacktest scenarioParams morningLeftoverDay).balance =
      (runBacktest scenarioParams morningLeftoverDay).balance ∧
    runBacktest scenarioParams morningLeftoverDay =
      runBacktest scenarioParams morningLeftoverDay :=
  backtest_deterministic scenarioParams morningLeftoverDay
    morningLeftoverDay rfl

theorem tp_phase_sessions (p : Params) (bt : BTState) (s : SessionState)
    (c : Candle) : (tp_phase p bt s c).1.morning = bt.morning ∧
      (tp_phase p bt s c).1.afternoon = bt.afternoon := by
  simp only [tp_phase]
  split_ifs with h₁ h₂
  · exact ⟨rfl, rfl⟩
  · exact ⟨rfl, rfl⟩
  · rw [closes_foldl, close_all_session_trades_spec]
    exact ⟨rfl, rfl⟩

theorem reversal_phase_sessions (p : Params) (bt : BTState)
    (s : SessionState) (c : Candle) (nd : Direction) (co : Bool) :
    (reversal_phase p bt s c nd co).1.morning = bt.morning ∧
      (reversal_phase p bt s c nd co).1.afternoon = bt.afternoon := by
  simp only [reversal_phase, close_all_session_trades_spec]
  split_ifs <;> exact ⟨rfl, rfl⟩

theorem scale_phase_sessions (p : Params) (bt : BTState) (s : SessionState)
    (c : Candle) (d : Direction) (slot : SessionSlot) (co : Bool) :
    (scale_phase p bt s c d slot co).1.morning = bt.morning ∧
      (scale_phase p bt s c d slot co).1.afternoon = bt.afternoon := by
  obtain ⟨ts, h⟩ := scale_phase_bt p bt s c d slot co
  rw [h]
  exact ⟨rfl, rfl⟩

theorem session_step_sessions (p : Params) (slot : SessionSlot)
    (bt : BTState) (s : SessionState) (c : Candle) :
    (session_step p slot (bt, s) c).1.morning = bt.morning ∧
      (session_step p slot (bt, s) c).1.afternoon = bt.afternoon := by
  unfold session_step
  rcases hdir : (breakout_phase p (can_breakout slot c) s c).breakout_direction
    with _ | d
  · simp only [hdir]
    exact ⟨by trivial, by trivial⟩
  · simp only [hdir]
    set s₁ := breakout_phase p (can_breakout slot c) s c
    have h1 := tp_phase_sessions p bt s₁ c
    set bts₁ := tp_phase p bt s₁ c
    have h2 := scale_phase_sessions p bts₁.1 bts₁.2 c d slot
      (can_open_new slot c)
    set bts₂ := scale_phase p bts₁.1 bts₁.2 c d slot (can_open_new slot c)
    rcases hsig : reversal_signal d bts₂.2 c with _ | nd
    · exact ⟨h2.1.trans h1.1, h2.2.trans h1.2⟩
    · have h3 := reversal_phase_sessions p bts₂.1 bts₂.2 c nd
        (can_open_new slot c)
      exact ⟨(h3.1.trans h2.1).trans h1.1, (h3.2.trans h2.2).trans h1.2⟩

theorem aloop_sessions (p : Params) :
    ∀ (cs : List Candle) (bt : BTState) (s : SessionState),
    (afternoon_loop p (bt, s) cs).1.morning = bt.morning
  | [], bt, s => rfl
  | c :: cs, bt, s => by
    rw [afternoon_loop]
    split_ifs with h₁ h₂
    · rfl
    · rw [close_all_session_trades_spec]
    · exact (aloop_sessions p cs (session_step p .AFTERNOON (bt, s) c).1
        (session_step p .AFTERNOON (bt, s) c).2).trans
        (session_step_sessions p .AFTERNOON bt s c).1

theorem record_session_drawdown_morning (bt : BTState) (s : SessionState)
    (slot : SessionSlot) :
    (record_session_drawdown bt s slot).morning = bt.morning := by
  unfold record_session_drawdown
  split_ifs with h₁
  · cases slot <;> rfl
  · rfl

theorem record_session_drawdown_afternoon (bt : BTState) (s : SessionState)
    (slot : SessionSlot) :
    (record_session_drawdown bt s slot).afternoon = bt.afternoon := by
  unfold record_session_drawdown
  split_ifs with h₁
  · cases slot <;> rfl
  · rfl

theorem range_setup_open (df : List Candle) (d a b : Nat)
    (s : SessionState) :
    (range_setup df d a b s).open_trades = s.open_trades := by
  simp only [range_setup]
  split_ifs with h₁
  · cases hcr : calculate_range df d a b <;> simp only [hcr] <;> rfl
  · rfl

theorem process_afternoon_keeps_morning (p : Params) (bt : BTState)
    (dfDay : List Candle) (d : Nat) :
    (process_afternoon_session p bt dfDay d).morning = bt.morning := by
  simp only [process_afternoon_session]
  split_ifs with h₁ h₂
  · rfl
  · rw [record_session_drawdown_morning]
    exact aloop_sessions p _ bt _
  · rcases hlast : (List.filter
      (fun c => decide (AFTERNOON_ENTRY_START ≤ c.timeOnly))
        dfDay).getLast? with _ | lc
    · simp only [hlast]
      rw [record_session_drawdown_morning]
      exact aloop_sessions p _ bt _
    · simp only [hlast]
      rw [record_session_drawdown_morning, close_all_session_trades_spec]
      exact aloop_sessions p _ bt _

theorem afternoon_ends_flat (p : Params) (bt : BTState)
    (dfDay : List Candle) (d : Nat)
    (h : bt.afternoon.open_trades = []) :
    (process_afternoon_session p bt dfDay d).afternoon.open_trades = [] := by
  simp only [process_afternoon_session]
  split_ifs with h₁ h₂
  · rw [range_setup_open]
    exact h
  · rw [record_session_drawdown_afternoon]
    simpa [List.isEmpty_iff] using h₂
  · rcases hlast : (List.filter
      (fun c => decide (AFTERNOON_ENTRY_START ≤ c.timeOnly))
        dfDay).getLast? with _ | lc
    · exfalso
      apply h₂
      have hentry : (List.filter
          (fun c => decide (AFTERNOON_ENTRY_START ≤ c.timeOnly)) dfDay) =
          [] := by
        simpa using hlast
      rw [hentry]
      show ((bt, range_setup dfDay d AFTERNOON_RANGE_START
          AFTERNOON_RANGE_END
          (session_init bt bt.afternoon)).2.open_trades).isEmpty = true
      rw [List.isEmpty_iff, range_setup_open]
      exact h
    · simp only [hlast]
      rw [record_session_drawdown_afternoon, close_all_session_trades_spec]

/-- C10: the morning session driver closes trades only with reasons TP or
REVERSAL (never SESSION_END or TIME_EXIT) and its balance moves exactly by
the closed trades' profits, so a trade still open at the end of the
morning's candles has contributed nothing; the afternoon driver never
touches the morning session's state, and — starting from an empty open
list, as after the daily reset — always ends the day with no open
afternoon trades (its end-of-data force close); the daily reset simply
discards any leftover open trades.  Concretely: a one-day feed leaves one
morning trade open with no closes and an unchanged balance, and an
afternoon feed that ends early closes its three trades with SESSION_END. -/
theorem morning_leftover_never_closed :
    (∀ (p : Params) (bt : BTState) (dfDay : List Candle) (d : Nat),
      (∃ Δ, (process_morning_session p bt dfDay d).closed_trades =
          bt.closed_trades ++ Δ ∧
        (∀ ct ∈ Δ, ct.exit_reason = .TP ∨ ct.exit_reason = .REVERSAL) ∧
        (process_morning_session p bt dfDay d).balance =
          bt.balance + profitSum Δ) ∧
      (process_afternoon_session p bt dfDay d).morning = bt.morning ∧
      (bt.afternoon.open_trades = [] →
        (process_afternoon_session p bt dfDay d).afternoon.open_trades =
          [])) ∧
    (∀ s : SessionState, (SessionState.reset s).open_trades = []) ∧
    ((process_morning_session scenarioParams initial_state
        morningLeftoverDay 0).morning.open_trades.length = 1 ∧
      (process_morning_session scenarioParams initial_state
        morningLeftoverDay 0).closed_trades = [] ∧
      (process_morning_session scenarioParams initial_state
        morningLeftoverDay 0).balance = 10000) ∧
    ((process_afternoon_session scenarioParams initial_state afternoonEndDay
        1).closed_trades.map (fun ct => ct.exit_reason) =
        [.SESSION_END, .SESSION_END, .SESSION_END] ∧
      (process_afternoon_session scenarioParams initial_state
        afternoonEndDay 1).afternoon.open_trades = []) := by
  refine ⟨?_, fun s => rfl, ?_, ?_⟩
  · intro p bt dfDay d
    refine ⟨?_, process_afternoon_keeps_morning p bt dfDay d,
      afternoon_ends_flat p bt dfDay d⟩
    obtain ⟨ts, cts, ha, hc, hb, hr⟩ := process_morning_session_ext p bt
      dfDay d
    exact ⟨cts, hc, hr, hb⟩
  · norm_num [process_morning_session, session_init, range_setup,
      calculate_range, rangeMask, seriesMax, seriesMin,
      record_session_drawdown, session_step, can_breakout, can_open_new,
      breakout_phase, arm_breakout, tp_phase, check_tp_hit,
      close_all_session_trades, close_trade, Trade.close, scale_phase,
      scale_loop, scale_entry, scale_triggered, open_trade, reversal_signal,
      reversal_phase, drawdown_phase, update_session_drawdown,
      drawdown_sample, calculate_floating_pnl, calculate_tp,
      calculate_scale_levels, SCALE_LEVELS, TP_UNITS, MORNING_ENTRY_CUTOFF,
      MORNING_RANGE_START, MORNING_RANGE_END, MORNING_ENTRY_START,
      AFTERNOON_EXIT_TIME, Candle.timeOnly, Candle.date, scenarioParams,
      initial_state, morningLeftoverDay, INITIAL_BALANCE]
    simp
  · norm_num [process_afternoon_session, session_init, range_setup,
      calculate_range, rangeMask, seriesMax, seriesMin,
      record_session_drawdown, afternoon_loop, session_step, can_breakout,
      can_open_new, breakout_phase, arm_breakout, tp_phase, check_tp_hit,
      close_all_session_trades, close_trade, Trade.close, scale_phase,
      scale_loop, scale_entry, scale_triggered, open_trade, reversal_signal,
      reversal_phase, drawdown_phase, update_session_drawdown,
      drawdown_sample, calculate_floating_pnl, calculate_tp,
      calculate_scale_levels, SCALE_LEVELS, TP_UNITS,
      AFTERNOON_RANGE_START, AFTERNOON_RANGE_END, AFTERNOON_ENTRY_START,
      AFTERNOON_EXIT_TIME, Candle.timeOnly, Candle.date, scenarioParams,
      initial_state, afternoonEndDay, INITIAL_BALANCE]
    simp

/-- Witness for C10 at a concrete day of data. -/
theorem morning_leftover_never_closed_witness :
    (process_afternoon_session scenarioParams initial_state afternoonEndDay
        1).morning = initial_state.morning ∧
    (process_afternoon_session scenarioParams initial_state afternoonEndDay
        1).afternoon.open_trades = [] ∧
    (SessionState.reset scenarioArmed).open_trades = [] :=
  ⟨(morning_leftover_never_closed.1 scenarioParams initial_state
      afternoonEndDay 1).2.1,
   (morning_leftover_never_closed.1 scenarioParams initial_state
      afternoonEndDay 1).2.2 rfl,
   morning_leftover_never_closed.2.1 scenarioArmed⟩

end TradingBot
